import Mathlib

/-!
# Verification of the good-night dreaming pipeline

Shallow embedding of the parts of `good_night` (Python) that the checked
claims are about, together with theorems settling the claims.

Conventions used throughout:

* Python `dict`s are modelled as association lists (`List (String × α)`)
  preserving insertion order, which is how CPython dicts iterate.
* Python `float` scores are modelled as `ℚ`; all the constants involved
  (0.2, 0.3, 0.4, 0.6, 0.85, …) are exactly representable in binary
  floating point, so rational arithmetic reproduces the Python results on
  the inputs considered here.
* A Python function that raises is modelled as returning `Except String α`,
  the `.error` carrying the exception message.
-/

namespace GoodNight

/-! ## Step 2 recommendation thresholds

Embeds `Step2Context._get_recommendation` and
`Step2Context._get_vector_recommendation`
(`src/good_night/dreaming/tools/step2_tools.py`).  The source receives the
match dictionaries sorted by score descending and reads
`matches[0]["similarity_score"]` (resp. `matches[0].get("score", 0)`); the
embedding takes the list of scores directly. -/

/-- `Step2Context._get_recommendation`: map the best lexical similarity
score to a recommendation string. -/
def getRecommendation (ms : List ℚ) : String :=
  match ms with
  | [] => "new - No similar historical resolutions found"
  | best :: _ =>
    if best > 0.85 then
      "already_resolved - Very similar issue was previously resolved"
    else if best > 0.6 then
      "recurring - Similar issue exists but may need updated resolution"
    else
      "new - Only weak matches found, consider this a new issue"

/-- `Step2Context._get_vector_recommendation`: map the best vector
similarity score to a recommendation string. -/
def getVectorRecommendation (ms : List ℚ) : String :=
  match ms with
  | [] => "new - No similar historical resolutions found in vector store"
  | best :: _ =>
    if best > 0.85 then
      "already_resolved - Very similar issue was previously resolved (semantic match)"
    else if best > 0.6 then
      "recurring - Semantically similar issue exists, may need updated resolution"
    else
      "new - Only weak semantic matches found"

/-! ## Orchestrator cycle model

Embeds the state-changing structure of `DreamingOrchestrator.run`
(`src/good_night/dreaming/orchestrator.py`), `StateManager`
(`src/good_night/storage/state.py`) and the persistence part of
`ResolutionStep.generate` (`src/good_night/dreaming/step3_resolution.py`).

Timestamps are modelled as `Int` (an epoch value).  The agents' outputs
(Stage A issue count, Stage C finalized resolution) are inputs to the
model, one record per connector; `uuid4()` run ids and `datetime.now()`
are likewise passed in.  The mutable external stores touched by a cycle —
the persistent state document, the Redis vector index, the artifact files
and the two resolution directories — are gathered in a `World` record;
file writes are modelled as appends to the corresponding component. -/

/-- A parsed conversation, as far as the orchestrator consumes it. -/
structure Conversation where
  sessionId : String
  startedAt : Option Int := none
  endedAt : Option Int := none
  deriving DecidableEq

/-- `ConnectorState` from `storage/state.py`. -/
structure ConnectorState where
  lastProcessed : Option Int := none
  cursor : Option String := none
  conversationsProcessed : Nat := 0
  lastRun : Option Int := none
  deriving DecidableEq

/-- `DreamingState` from `storage/state.py`. -/
structure DreamingState where
  lastRun : Option Int := none
  totalRuns : Nat := 0
  lastRunId : Option String := none
  issuesFoundTotal : Nat := 0
  resolutionsGeneratedTotal : Nat := 0
  deriving DecidableEq

/-- One action of a finalized resolution (the fields the persistence and
indexing paths consume). -/
structure SavedAction where
  type : String
  target : String
  operation : String
  rationale : String
  deriving DecidableEq

/-- A finalized resolution as returned by `Step3Context.get_resolution`
(per-connector actions flattened). -/
structure ResolutionRecord where
  id : String
  actions : List SavedAction
  deriving DecidableEq

/-- Everything a dreaming cycle can durably change. -/
structure World where
  connectors : List (String × ConnectorState)
  dreaming : DreamingState
  vectorIndex : List (String × SavedAction)
  artifactWrites : List (String × String)
  resolutionsDir : List ResolutionRecord
  dryRunsDir : List ResolutionRecord
  deriving DecidableEq

/-- Insert-or-replace for an association list, keeping the position of an
existing key (CPython dict assignment). -/
def upsertAssoc {α : Type} : List (String × α) → String → α → List (String × α)
  | [], k, v => [(k, v)]
  | (k0, v0) :: rest, k, v =>
    if k0 = k then (k0, v) :: rest else (k0, v0) :: upsertAssoc rest k v

/-- `normalize_ts` in `DreamingOrchestrator.run`: forcing a naive
timestamp to UTC changes only its timezone tag, so on the epoch-value
model it is the identity (and `None` is passed through). -/
def normalizeTs (ts : Option Int) : Option Int := ts

/-- The `last_processed` candidate computed in `DreamingOrchestrator.run`:
`max` over `normalize_ts(c.ended_at) or normalize_ts(c.started_at)` with
`None` entries filtered out. -/
def latestTimestamp (convs : List Conversation) : Option Int :=
  let timestamps := convs.map fun c =>
    (normalizeTs c.endedAt).orElse fun _ => normalizeTs c.startedAt
  match timestamps.filterMap id with
  | [] => none
  | t :: ts => some (ts.foldl max t)

/-- `StateManager.update_connector_state` (including the implicit
`get_connector_state` default-insertion): optional fields are only written
when present, the conversations counter is advanced by the given amount,
and `last_run` is stamped. -/
def updateConnectorState (w : World) (connectorId : String)
    (lastProcessed : Option Int) (conversationsProcessed : Option Nat)
    (now : Int) : World :=
  let cur := ((w.connectors.lookup connectorId).getD {})
  let st1 := match lastProcessed with
    | some ts => { cur with lastProcessed := some ts }
    | none => cur
  let st2 := match conversationsProcessed with
    | some n => { st1 with conversationsProcessed := st1.conversationsProcessed + n }
    | none => st1
  { w with connectors :=
      upsertAssoc w.connectors connectorId { st2 with lastRun := some now } }

/-- `StateManager.update_dreaming_state`. -/
def updateDreamingState (w : World) (runId : String)
    (issuesFound resolutionsGenerated : Nat) (now : Int) : World :=
  { w with dreaming :=
      { lastRun := some now
        totalRuns := w.dreaming.totalRuns + 1
        lastRunId := some runId
        issuesFoundTotal := w.dreaming.issuesFoundTotal + issuesFound
        resolutionsGeneratedTotal :=
          w.dreaming.resolutionsGeneratedTotal + resolutionsGenerated } }

/-- `ResolutionStep._save_resolution`: dry runs are written to the
`dry-runs` directory, otherwise `ResolutionStorage.save` writes to the
`resolutions` directory. -/
def saveResolution (dryRun : Bool) (r : ResolutionRecord) (w : World) : World :=
  if dryRun then { w with dryRunsDir := w.dryRunsDir ++ [r] }
  else { w with resolutionsDir := w.resolutionsDir ++ [r] }

/-- `ResolutionStep._store_in_redis`: one vector document per action. -/
def storeInRedis (r : ResolutionRecord) (w : World) : World :=
  { w with vectorIndex := w.vectorIndex ++ r.actions.map fun a => (r.id, a) }

/-- `ResolutionStep._apply_resolutions`: each action is dispatched to its
artifact handler, which performs a write at the action's target. -/
def applyResolutions (r : ResolutionRecord) (w : World) : World :=
  { w with artifactWrites :=
      w.artifactWrites ++ r.actions.map fun a => (a.operation, a.target) }

/-- The durable effects of `ResolutionStep.generate`: nothing to resolve
or no finalized resolution → no effect; otherwise the resolution JSON is
always saved, and only a non-dry run additionally indexes the actions in
Redis and applies them through the artifact handlers. -/
def resolutionGenerate (dryRun : Bool) (issuesToResolve : Nat)
    (agentResolution : Option ResolutionRecord) (w : World) :
    World × Option ResolutionRecord :=
  if issuesToResolve = 0 then (w, none)
  else
    match agentResolution with
    | none => (w, none)
    | some r =>
      let w1 := saveResolution dryRun r w
      let w2 := if !dryRun then applyResolutions r (storeInRedis r w1) else w1
      (w2, some r)

/-- Per-connector inputs of one cycle: the extracted conversations and the
outcomes of the stage agents for this connector. -/
structure ConnectorCycleInput where
  connectorId : String
  conversations : List Conversation
  /-- `len(report.issues)` of the Stage A report. -/
  step1Issues : Nat
  /-- `len(report.new_issues + report.recurring_issues)` after Stage B. -/
  issuesToResolve : Nat
  /-- `context.get_resolution()` after the Stage C agent ran. -/
  resolution : Option ResolutionRecord
  deriving DecidableEq

/-- The per-connector body of the loop in `DreamingOrchestrator.run`,
returning the updated world, the connector's issue count and its action
count.  Mirrors the control flow: empty extraction → `continue`; Stage A
report without issues → `continue` (which skips the state update at the
bottom of the loop); otherwise Stages B and C run, and the connector
state is updated unless this is a dry run. -/
def processConnector (dryRun : Bool) (now : Int) (inp : ConnectorCycleInput)
    (w : World) : World × Nat × Nat :=
  if inp.conversations.isEmpty then (w, 0, 0)
  else if inp.step1Issues = 0 then (w, inp.step1Issues, 0)
  else
    let res := resolutionGenerate dryRun inp.issuesToResolve inp.resolution w
    let actionCount := match res.2 with
      | some r => r.actions.length
      | none => 0
    let w2 :=
      if !inp.conversations.isEmpty && !dryRun then
        updateConnectorState res.1 inp.connectorId
          (latestTimestamp inp.conversations) (some inp.conversations.length) now
      else res.1
    (w2, inp.step1Issues, actionCount)

/-- One iteration of the connector loop in `DreamingOrchestrator.run`,
threading the world and the `total_conversations` / `total_issues` /
`total_resolutions` accumulators. -/
def cycleStep (dryRun : Bool) (now : Int) (acc : World × Nat × Nat × Nat)
    (inp : ConnectorCycleInput) : World × Nat × Nat × Nat :=
  let stepped := processConnector dryRun now inp acc.1
  (stepped.1, acc.2.1 + inp.conversations.length,
    acc.2.2.1 + stepped.2.1, acc.2.2.2 + stepped.2.2)

/-- The whole-cycle state effect of `DreamingOrchestrator.run`: fold the
per-connector body over the connectors, then update the dreaming counters
unless no conversations were extracted at all or this is a dry run. -/
def runCycle (dryRun : Bool) (runId : String) (now : Int)
    (inputs : List ConnectorCycleInput) (w : World) : World :=
  let folded := inputs.foldl (cycleStep dryRun now) (w, 0, 0, 0)
  if folded.2.1 = 0 then folded.1
  else if !dryRun then
    updateDreamingState folded.1 runId folded.2.2.1 folded.2.2.2 now
  else folded.1

/-- World changes a dry-run cycle is allowed to make: every durable store
except the dry-runs directory is untouched, and the dry-runs directory
only receives appended remediation JSON records. -/
def OnlyDryRunAppends (w w' : World) : Prop :=
  w'.connectors = w.connectors ∧ w'.dreaming = w.dreaming
  ∧ w'.vectorIndex = w.vectorIndex ∧ w'.artifactWrites = w.artifactWrites
  ∧ w'.resolutionsDir = w.resolutionsDir
  ∧ ∃ extra, w'.dryRunsDir = w.dryRunsDir ++ extra

/-- An initial world with one registered connector in its default state:
the input on which claim C1 is evaluated. -/
def exampleC1World : World :=
  { connectors := [("claude-code", {})]
    dreaming := {}
    vectorIndex := []
    artifactWrites := []
    resolutionsDir := []
    dryRunsDir := [] }

/-- A connector cycle in which one conversation was extracted and Stage A
reported zero issues: the input on which claim C1 is evaluated. -/
def exampleC1Input : ConnectorCycleInput :=
  { connectorId := "claude-code"
    conversations := [{ sessionId := "s1", startedAt := some 50, endedAt := some 100 }]
    step1Issues := 0
    issuesToResolve := 0
    resolution := none }

/-! ## Stage A tool context

Embeds `Step1Context` (`src/good_night/dreaming/tools/step1_tools.py`).
Tool results are UTF-8 JSON strings in the source; handlers that can hit a
Python runtime error are modelled as `Except String String`, where `.ok`
carries the returned JSON text and `.error` the exception message. -/

/-- A dynamically typed Python value, as it arrives in a tool call's
keyword arguments. -/
inductive PyVal where
  | int (i : Int)
  | str (s : String)
  deriving DecidableEq

/-- `json.dumps({"error": msg})` for a message without characters that
JSON would escape — the uniform error shape of the tool handlers. -/
def errJson (msg : String) : String :=
  "\x7b\"error\": \"" ++ msg ++ "\"\x7d"

/-- Whether a tool return is a JSON document whose failure is encoded in
an `error` field (the shape every handler produces for its own errors):
the text begins with the nine characters of `{"error":`. -/
def isErrorDoc (s : String) : Bool :=
  s.data.take 9 == "\x7b\"error\":".data

/-- Python `s.startswith(pre)` on the character-list view. -/
def pyStartsWith (s pre : String) : Bool :=
  s.data.take pre.data.length == pre.data

/-- A message as the Stage A tools consume it (`msg.role.value`, content,
optional timestamp). -/
structure ToolMessage where
  role : String
  content : String
  timestamp : Option Int := none
  deriving DecidableEq

/-- A conversation as the Stage A tools consume it;
`workingDirectory` is `metadata.get("working_directory", "")`. -/
structure ToolConversation where
  sessionId : String
  messages : List ToolMessage
  workingDirectory : String := ""
  deriving DecidableEq

/-- `IssueType` from `dreaming/report.py`. -/
inductive IssueType where
  | repeatedRequest | frustrationSignal | styleMismatch
  | capabilityGap | knowledgeGap | other
  deriving DecidableEq

/-- `IssueType(type)` with `except ValueError: issue_type = IssueType.OTHER`
(`Step1Context.report_issue`). -/
def issueTypeOf (s : String) : IssueType :=
  if s = "repeated_request" then .repeatedRequest
  else if s = "frustration_signal" then .frustrationSignal
  else if s = "style_mismatch" then .styleMismatch
  else if s = "capability_gap" then .capabilityGap
  else if s = "knowledge_gap" then .knowledgeGap
  else if s = "other" then .other
  else .other

/-- `Severity` from `dreaming/report.py`. -/
inductive Severity where
  | low | medium | high | critical
  deriving DecidableEq

/-- `Severity(severity)` with `except ValueError: issue_severity =
Severity.MEDIUM` (`Step1Context.report_issue`). -/
def severityOf (s : String) : Severity :=
  if s = "low" then .low
  else if s = "medium" then .medium
  else if s = "high" then .high
  else if s = "critical" then .critical
  else .medium

/-- `Evidence` from `dreaming/report.py`. -/
structure Evidence where
  sessionId : String
  messageIndex : Option Int := none
  quote : String := ""
  context : String := ""
  workingDirectory : String := ""
  deriving DecidableEq

/-- `Issue` from `dreaming/report.py` (the fields `report_issue` sets). -/
structure Issue where
  id : String
  type : IssueType
  severity : Severity
  title : String
  description : String
  evidence : List Evidence
  confidence : ℚ
  suggestedResolution : String
  localChange : Bool
  deriving DecidableEq

/-- The mutable Stage A context. -/
structure Step1Context where
  conversations : List ToolConversation
  reportedIssues : List Issue := []
  deriving DecidableEq

/-- `self._conv_index.get(conversation_id)`: the index is the dict
comprehension `{c.session_id: c for c in conversations}`, in which a later
conversation with the same session id overwrites an earlier one — hence
the lookup over the reversed list. -/
def convIndexLookup (convs : List ToolConversation) (conversationId : String) :
    Option ToolConversation :=
  convs.reverse.find? fun c => c.sessionId == conversationId

/-- One entry of the `messages` array returned by `get_messages`. -/
structure MessageView where
  index : Nat
  role : String
  content : String
  truncated : Bool
  timestamp : Option Int
  deriving DecidableEq

/-- Replies of the Stage A tools that the claims inspect.  `errorDoc msg`
models the returned string `json.dumps({"error": msg})`. -/
inductive Step1Reply where
  | errorDoc (msg : String)
  | messagesDoc (conversationId : String) (offset limit totalMessages : Nat)
      (messages : List MessageView) (hasMore : Bool)
  | reportOk (issueId : String) (title : String) (totalIssuesReported : Nat)
  deriving DecidableEq

/-- `Step1Context.get_messages`: paginated message view with 500-character
truncation; an unknown conversation id yields an error document (the
lookup is an exact dict `get`, with no prefix matching). -/
def getMessages (ctx : Step1Context) (conversationId : String)
    (offset limit : Nat) : Step1Reply :=
  match convIndexLookup ctx.conversations conversationId with
  | none => .errorDoc ("Conversation " ++ conversationId ++ " not found")
  | some conv =>
    let page := (conv.messages.drop offset).take limit
    let views := page.enum.map fun im =>
      let content := im.2.content
      let truncated := content.length > 500
      { index := offset + im.1
        role := im.2.role
        content := if truncated then content.take 500 else content
        truncated := truncated
        timestamp := im.2.timestamp : MessageView }
    .messagesDoc conversationId offset limit conv.messages.length views
      (decide (offset + limit < conv.messages.length))

/-- The success document of `get_full_message` (`json.dumps` of the
message record; the source pretty-prints with `indent=2` and escapes
strings — the layout is abbreviated here, the fields are the same). -/
def fullMessageDoc (conversationId : String) (messageIndex : Int)
    (role content : String) (timestamp : Option Int) : String :=
  "\x7b\"conversation_id\": \"" ++ conversationId ++ "\", \"message_index\": "
    ++ toString messageIndex ++ ", \"role\": \"" ++ role ++ "\", \"content\": \""
    ++ content ++ "\", \"timestamp\": "
    ++ (match timestamp with | some t => toString t | none => "null") ++ "\x7d"

/-- `Step1Context.get_full_message` with a dynamically typed
`message_index`, as the model may supply one: unknown conversation and
out-of-range index are reported inside the returned JSON, while a
non-integer index raises a `TypeError` from `message_index < 0`
(modelled as `.error`). -/
def getFullMessage (ctx : Step1Context) (conversationId : String)
    (messageIndex : PyVal) : Except String String :=
  match convIndexLookup ctx.conversations conversationId with
  | none => .ok (errJson ("Conversation " ++ conversationId ++ " not found"))
  | some conv =>
    match messageIndex with
    | .str _ => .error "'<' not supported between instances of 'str' and 'int'"
    | .int i =>
      if i < 0 ∨ i ≥ conv.messages.length then
        .ok (errJson ("Message index " ++ toString i ++ " out of range"))
      else
        let m := conv.messages.getD i.toNat { role := "", content := "" }
        .ok (fullMessageDoc conversationId i m.role m.content m.timestamp)

/-- One evidence dict passed to `report_issue` (`e.get(...)` defaults). -/
structure EvidenceInput where
  sessionId : String := ""
  messageIndex : Option Int := none
  quote : String := ""
  context : String := ""
  workingDirectory : String := ""
  deriving DecidableEq

/-- The evidence enrichment in `Step1Context.report_issue`: when the
caller omitted `working_directory` and gave a session id, it is filled
from the referenced conversation's metadata. -/
def enrichEvidence (ctx : Step1Context) (e : EvidenceInput) : Evidence :=
  let wd :=
    if e.workingDirectory = "" ∧ e.sessionId ≠ "" then
      match convIndexLookup ctx.conversations e.sessionId with
      | some conv => conv.workingDirectory
      | none => e.workingDirectory
    else e.workingDirectory
  { sessionId := e.sessionId
    messageIndex := e.messageIndex
    quote := e.quote
    context := e.context
    workingDirectory := wd }

/-- `Step1Context.report_issue`: coerce the enum strings (unknown type →
`other`, unknown severity → `medium`), enrich the evidence, build the
issue with confidence 0.8, enroll it, and return a success reply.
`freshId` stands for the generated `uuid4()`. -/
def reportIssue (ctx : Step1Context) (freshId : String)
    (type severity title description : String) (evidence : List EvidenceInput)
    (suggestedResolution : Option String) (localChange : Bool) :
    Step1Context × Issue × Step1Reply :=
  let issue : Issue :=
    { id := freshId
      type := issueTypeOf type
      severity := severityOf severity
      title := title
      description := description
      evidence := evidence.map (enrichEvidence ctx)
      confidence := 0.8
      suggestedResolution := suggestedResolution.getD ""
      localChange := localChange }
  ({ ctx with reportedIssues := ctx.reportedIssues ++ [issue] },
    issue,
    .reportOk freshId title (ctx.reportedIssues.length + 1))

/-! ## Provider tool boundary

Embeds `AnthropicProvider._execute_tool`
(`src/good_night/providers/anthropic_provider.py`): the handler call is
wrapped in `try/except`; an exception becomes a `ToolResult` with
`content=str(e)` and `is_error=True`, and an unknown tool name a
`ToolResult` with a plain message — in neither case a JSON document. -/

/-- A registered tool: name and handler over keyword arguments. -/
structure ToolDefinition where
  name : String
  handler : List (String × PyVal) → Except String String

/-- `ToolResult` (the `tool_call_id` field is threaded through unchanged
and omitted here). -/
structure ToolResult where
  content : String
  isError : Bool
  deriving DecidableEq

/-- `AnthropicProvider._execute_tool`. -/
def executeTool (tools : List ToolDefinition) (callName : String)
    (input : List (String × PyVal)) : ToolResult :=
  match tools.find? (fun t => t.name == callName) with
  | some t =>
    match t.handler input with
    | .ok r => { content := r, isError := false }
    | .error e => { content := e, isError := true }
  | none => { content := "Unknown tool: " ++ callName, isError := true }

/-- The `get_full_message` handler as registered with the runtime:
Python binds the JSON input as keyword arguments (a missing required
argument would raise a `TypeError` before the body runs). -/
def getFullMessageHandler (ctx : Step1Context)
    (input : List (String × PyVal)) : Except String String :=
  match input.lookup "conversation_id", input.lookup "message_index" with
  | some (.str conversationId), some idx => getFullMessage ctx conversationId idx
  | _, _ =>
    .error "get_full_message() missing 1 required positional argument"

/-- A Stage A context with one conversation: the input on which claims C6
and C7 are evaluated. -/
def exampleStep1Ctx : Step1Context :=
  { conversations :=
      [{ sessionId := "abcdefgh-1234"
         messages := [{ role := "human", content := "hello" }]
         workingDirectory := "/home/user/proj" }] }

/-! ## Stage B tool context

Embeds the filtering state of `Step2Context`
(`src/good_night/dreaming/tools/step2_tools.py`): the issue index with its
exact-then-prefix lookup, `include_issue` / `exclude_issue` over the
`included_issues` set and the `excluded_issues` dict, and
`mark_issue_status`.  The Python set of included ids is modelled as a
duplicate-free list (insertion order; order is never observed), the dict
of excluded ids as an association list. -/

/-- An `EnrichedIssue` as far as the Stage B filtering tools touch it. -/
structure EnrichedIssueRec where
  id : String
  title : String := ""
  status : String := "new"
  isRecurring : Bool := false
  deriving DecidableEq

/-- The mutable Stage B filtering state. -/
structure Step2State where
  issues : List EnrichedIssueRec
  includedIssues : List String := []
  excludedIssues : List (String × String) := []
  deriving DecidableEq

/-- `Step2Context._find_issue`: exact match against the issue index
first, then the first issue whose full id has the argument as prefix. -/
def findIssue (issues : List EnrichedIssueRec) (issueId : String) :
    Option EnrichedIssueRec :=
  match issues.find? (fun i => i.id == issueId) with
  | some i => some i
  | none => issues.find? fun i => pyStartsWith i.id issueId

/-- Replies of the Stage B tools that the claims inspect.  `errorDoc msg`
models the returned string `json.dumps({"error": msg})`. -/
inductive Step2Reply where
  | errorDoc (msg : String)
  | includeOk (issueId : String) (rationale : String) (totalIncluded : Nat)
  | excludeOk (issueId : String) (reason : String) (totalExcluded : Nat)
  | markOk (issueId : String) (newStatus : String)
  deriving DecidableEq

/-- `Step2Context.include_issue`: resolve the id, delete it from the
excluded dict if present, add it to the included set. -/
def includeIssue (st : Step2State) (issueId : String)
    (rationale : Option String) : Step2State × Step2Reply :=
  match findIssue st.issues issueId with
  | none => (st, .errorDoc ("Issue " ++ issueId ++ " not found"))
  | some issue =>
    let excluded := st.excludedIssues.filter fun p => p.1 != issue.id
    let included :=
      if st.includedIssues.contains issue.id then st.includedIssues
      else st.includedIssues ++ [issue.id]
    ({ st with includedIssues := included, excludedIssues := excluded },
      .includeOk issue.id (rationale.getD "Issue deemed worth resolving")
        included.length)

/-- `Step2Context.exclude_issue`: resolve the id, discard it from the
included set, record it in the excluded dict with the reason. -/
def excludeIssue (st : Step2State) (issueId reason : String) :
    Step2State × Step2Reply :=
  match findIssue st.issues issueId with
  | none => (st, .errorDoc ("Issue " ++ issueId ++ " not found"))
  | some issue =>
    let included := st.includedIssues.filter fun i => i != issue.id
    let excluded := upsertAssoc st.excludedIssues issue.id reason
    ({ st with includedIssues := included, excludedIssues := excluded },
      .excludeOk issue.id reason excluded.length)

/-- `Step2Context.mark_issue_status`: resolve the id, reject a status
outside the three allowed values inside the returned JSON, otherwise set
`status` and derive `is_recurring`. -/
def markIssueStatus (st : Step2State) (issueId status : String) :
    Step2State × Step2Reply :=
  match findIssue st.issues issueId with
  | none => (st, .errorDoc ("Issue " ++ issueId ++ " not found"))
  | some issue =>
    if status ∉ ["new", "recurring", "already_resolved"] then
      (st, .errorDoc ("Invalid status: " ++ status))
    else
      let issues := st.issues.map fun i =>
        if i.id = issue.id then
          { i with status := status, isRecurring := status == "recurring" }
        else i
      ({ st with issues := issues }, .markOk issueId status)

/-- A Stage B filtering decision, for reasoning about call sequences. -/
inductive Step2Op where
  | includeOp (issueId : String) (rationale : Option String)
  | excludeOp (issueId reason : String)
  deriving DecidableEq

/-- Apply one filtering decision to the state. -/
def applyStep2Op (st : Step2State) : Step2Op → Step2State
  | .includeOp issueId rationale => (includeIssue st issueId rationale).1
  | .excludeOp issueId reason => (excludeIssue st issueId reason).1

/-- Fold a sequence of filtering decisions over the state. -/
def runStep2Ops (st : Step2State) (ops : List Step2Op) : Step2State :=
  ops.foldl applyStep2Op st

/-- The initial filtering state over a cycle's issues
(`Step2Context.__post_init__`: both decision collections empty). -/
def initStep2State (issues : List EnrichedIssueRec) : Step2State :=
  { issues := issues }

/-- Invariant of the Stage B filtering state: no issue id is
simultaneously in the included set and a key of the excluded dict. -/
def DisjointDecisions (st : Step2State) : Prop :=
  ∀ issueId : String, issueId ∈ st.includedIssues →
    ∀ reason : String, (issueId, reason) ∉ st.excludedIssues

/-! ## Stage C tool context

Embeds `Step3Context` (`src/good_night/dreaming/tools/step3_tools.py`):
the draft collection, `create_resolution_action`, `remove_action` and
`finalize_resolution` with its per-action validation.  Artifact handlers
are modelled by the data the tools read from them: the configured output
path and the parsed content schema (required field names plus hint).
Content dicts are modelled as association lists with string values. -/

/-- The data `Step3Context` reads from an artifact handler. -/
structure ArtifactHandlerRec where
  outputPath : Option String
  requiredFields : List String
  hint : String
  deriving DecidableEq

/-- An issue as `create_resolution_action` consumes it for harvesting
conversation references (`report.new_issues + report.recurring_issues`). -/
structure ResolveIssueRec where
  id : String
  evidence : List Evidence
  deriving DecidableEq

/-- `ConversationReference` from `storage/resolutions.py`. -/
structure ConversationReference where
  sessionId : String
  workingDirectory : String
  deriving DecidableEq

/-- `ResolutionActionDraft`. -/
structure ResolutionActionDraft where
  id : String
  artifactType : String
  name : String
  targetPath : String
  operation : String
  content : List (String × String)
  issueRefs : List String
  references : List ConversationReference
  rationale : String
  priority : String
  deriving DecidableEq

/-- The mutable Stage C context (`Step3Context`). -/
structure Step3State where
  issuesToResolve : List ResolveIssueRec
  enabledArtifacts : List String
  artifactHandlers : List (String × ArtifactHandlerRec)
  dryRun : Bool := false
  resolutionActions : List ResolutionActionDraft := []
  finalized : Bool := false
  deriving DecidableEq

/-- Replies of the Stage C tools.  The three error constructors model
JSON documents carrying an `error` field, the rest the corresponding
success / failure documents. -/
inductive Step3Reply where
  | errorDoc (msg : String)
  | errorDocWithHint (msg hint : String)
  | errorDocWithTypes (msg : String) (enabledTypes : List String)
  | createOk (actionId message targetPath : String) (totalActions : Nat)
  | removeOk (message : String) (remainingActions : Nat)
  | finalizeNoActions
  | finalizeFail (message : String) (errors : List String)
  | finalizeOk (message : String) (dryRun : Bool)
  deriving DecidableEq

/-- Whether a Stage C reply is a JSON document with an `error` field. -/
def Step3Reply.isError : Step3Reply → Bool
  | .errorDoc _ => true
  | .errorDocWithHint _ _ => true
  | .errorDocWithTypes _ _ => true
  | _ => false

/-- Name normalization in `Step3Context._generate_target_path`. -/
def normalizeName (name : String) : String :=
  (name.toLower.replace " " "-").replace "_" "-"

/-- `Step3Context._generate_target_path`. -/
def generateTargetPath (st : Step3State) (artifactType name : String) : String :=
  let normalized := normalizeName name
  match st.artifactHandlers.lookup artifactType with
  | some h =>
    match h.outputPath with
    | some base => base ++ "/" ++ normalized
    | none => "~/.good-night/artifacts/" ++ artifactType ++ "/" ++ normalized
  | none => "~/.good-night/artifacts/" ++ artifactType ++ "/" ++ normalized

/-- `Step3Context._get_content_hint`. -/
def getContentHint (st : Step3State) (artifactType : String) : String :=
  match st.artifactHandlers.lookup artifactType with
  | some h => h.hint
  | none => "content must be an object with the artifact's required fields"

/-- Evidence-reference accumulation in `create_resolution_action`:
a reference per session id not yet seen. -/
def addEvidenceRefs (acc : List ConversationReference) (ev : Evidence) :
    List ConversationReference :=
  if ev.sessionId != "" && !(acc.any fun r => r.sessionId == ev.sessionId) then
    acc ++ [{ sessionId := ev.sessionId, workingDirectory := ev.workingDirectory }]
  else acc

/-- Conversation-reference harvesting in `create_resolution_action`:
walk the referenced issues' evidence, deduplicated by session id. -/
def harvestReferences (issues : List ResolveIssueRec) (issueRefs : List String) :
    List ConversationReference :=
  issues.foldl
    (fun acc issue =>
      if issueRefs.contains issue.id then issue.evidence.foldl addEvidenceRefs acc
      else acc)
    []

/-- `Step3Context.create_resolution_action`: the validation chain
(required arguments, not-finalized, enabled artifact type, operation),
target-path generation, reference harvesting and draft enrolment.
`freshId` stands for the generated `str(uuid4())[:8]`. -/
def createResolutionAction (st : Step3State) (freshId : String)
    (artifactType name : String) (content : List (String × String))
    (issueRefs : List String) (targetPath : Option String)
    (operation rationale priority : String) : Step3State × Step3Reply :=
  if artifactType = "" then (st, .errorDoc "artifact_type is required")
  else if name = "" then (st, .errorDoc "name is required")
  else if content = [] then
    (st, .errorDocWithHint "content is required" (getContentHint st artifactType))
  else if issueRefs = [] then
    (st, .errorDoc "issue_refs is required (list of issue IDs)")
  else if st.finalized then
    (st, .errorDoc "Resolution already finalized, cannot add more actions")
  else if ¬ st.enabledArtifacts.contains artifactType then
    (st, .errorDocWithTypes ("Artifact type '" ++ artifactType ++ "' not enabled")
      st.enabledArtifacts)
  else
    let target := match targetPath with
      | some tp => if tp = "" then generateTargetPath st artifactType name else tp
      | none => generateTargetPath st artifactType name
    if operation ∉ ["create", "update", "append"] then
      (st, .errorDoc ("Invalid operation: " ++ operation))
    else
      let action : ResolutionActionDraft :=
        { id := freshId
          artifactType := artifactType
          name := name
          targetPath := target
          operation := operation
          content := content
          issueRefs := issueRefs
          references := harvestReferences st.issuesToResolve issueRefs
          rationale := rationale
          priority := priority }
      ({ st with resolutionActions := st.resolutionActions ++ [action] },
        .createOk freshId
          ("Created " ++ operation ++ " action for " ++ artifactType ++ ": " ++ name)
          target (st.resolutionActions.length + 1))

/-- Removal of the first draft with the given id (`enumerate` + `pop`). -/
def removeFirstAction (l : List ResolutionActionDraft) (actionId : String) :
    List ResolutionActionDraft :=
  match l with
  | [] => []
  | a :: rest =>
    if a.id = actionId then rest else a :: removeFirstAction rest actionId

/-- `Step3Context.remove_action`: refuse after finalization; otherwise
pop the first draft whose id matches exactly (no prefix fallback). -/
def removeAction (st : Step3State) (actionId : String) :
    Step3State × Step3Reply :=
  if st.finalized then (st, .errorDoc "Resolution already finalized")
  else
    match st.resolutionActions.find? (fun a => a.id == actionId) with
    | some removed =>
      ({ st with resolutionActions := removeFirstAction st.resolutionActions actionId },
        .removeOk ("Removed action: " ++ removed.name)
          (st.resolutionActions.length - 1))
    | none => (st, .errorDoc ("Action " ++ actionId ++ " not found"))

/-- `Step3Context._validate_action`. -/
def validateAction (st : Step3State) (a : ResolutionActionDraft) : List String :=
  (if a.name = "" then ["Action " ++ a.id ++ ": name is required"] else [])
  ++ (if a.content = [] then
        ["Action " ++ a.id ++ ": content is required - " ++ getContentHint st a.artifactType]
      else [])
  ++ (if a.issueRefs = [] then
        ["Action " ++ a.id ++ ": at least one issue_ref is required"]
      else [])
  ++ (match st.artifactHandlers.lookup a.artifactType with
      | some h =>
        if a.content ≠ [] then
          (h.requiredFields.filter fun f => (a.content.lookup f).isNone).map
            fun f => "Action " ++ a.id ++ ": " ++ a.artifactType
              ++ " content missing '" ++ f ++ "'"
        else []
      | none => [])

/-- `Step3Context.finalize_resolution`: refuse a second finalization;
an empty draft or validation errors return `success=false` without
freezing; otherwise set `_finalized`. -/
def finalizeResolution (st : Step3State) : Step3State × Step3Reply :=
  if st.finalized then (st, .errorDoc "Resolution already finalized")
  else if st.resolutionActions = [] then (st, .finalizeNoActions)
  else
    let errors := (st.resolutionActions.map (validateAction st)).flatten
    if errors ≠ [] then (st, .finalizeFail "Validation failed" errors)
    else
      ({ st with finalized := true },
        .finalizeOk
          ("Resolution finalized with " ++ toString st.resolutionActions.length
            ++ " actions")
          st.dryRun)

/-- A Stage C tool call, for reasoning about call sequences. -/
inductive Step3Op where
  | createOp (freshId artifactType name : String)
      (content : List (String × String)) (issueRefs : List String)
      (targetPath : Option String) (operation rationale priority : String)
  | removeOp (actionId : String)
  | finalizeOp
  deriving DecidableEq

/-- Apply one Stage C tool call to the state, returning the reply too. -/
def applyStep3Op (st : Step3State) : Step3Op → Step3State × Step3Reply
  | .createOp freshId artifactType name content issueRefs targetPath
      operation rationale priority =>
    createResolutionAction st freshId artifactType name content issueRefs
      targetPath operation rationale priority
  | .removeOp actionId => removeAction st actionId
  | .finalizeOp => finalizeResolution st

/-- Fold a sequence of Stage C tool calls over the state. -/
def runStep3Ops (st : Step3State) (ops : List Step3Op) : Step3State :=
  ops.foldl (fun s op => (applyStep3Op s op).1) st

/-- A small Stage C context (one enabled artifact type with one required
content field) on which claims C4 and C7 are evaluated. -/
def exampleStep3State : Step3State :=
  { issuesToResolve := [{ id := "issue-1", evidence := [] }]
    enabledArtifacts := ["skill"]
    artifactHandlers :=
      [("skill", { outputPath := some "~/.claude/skills"
                   requiredFields := ["name", "description", "instructions"]
                   hint := "content must include name, description, instructions" })] }

/-- A draft that passes `_validate_action` in `exampleStep3State`. -/
def exampleValidDraft : ResolutionActionDraft :=
  { id := "aaaa0000"
    artifactType := "skill"
    name := "Run tests"
    targetPath := "~/.claude/skills/run-tests"
    operation := "create"
    content := [("name", "Run tests"), ("description", "d"), ("instructions", "i")]
    issueRefs := ["issue-1"]
    references := []
    rationale := "r"
    priority := "medium" }

/-- A draft missing required content fields, so that validation fails. -/
def exampleInvalidDraft : ResolutionActionDraft :=
  { exampleValidDraft with id := "bbbb1111", content := [("name", "Run tests")] }

/-- The example context holding one valid draft, not yet finalized. -/
def exampleOpenValidState : Step3State :=
  { exampleStep3State with resolutionActions := [exampleValidDraft] }

/-- The example context holding one invalid draft, not yet finalized. -/
def exampleOpenInvalidState : Step3State :=
  { exampleStep3State with resolutionActions := [exampleInvalidDraft] }

/-- The example context after a successful finalization. -/
def exampleFinalizedState : Step3State :=
  { exampleOpenValidState with finalized := true }

/-- A Stage B issue list with one issue whose id has a unique
8-character prefix: the input on which claim C7's theorem is witnessed. -/
def exampleIssues : List EnrichedIssueRec :=
  [{ id := "11112222-aaaa-bbbb" }]

/-- The tool registry holding `get_full_message` over `exampleStep1Ctx`:
the input on which claim C6 is evaluated. -/
def exampleStep1Tools : List ToolDefinition :=
  [{ name := "get_full_message", handler := getFullMessageHandler exampleStep1Ctx }]

/-! ## Stage B lexical scorers

Embeds `difflib.SequenceMatcher.ratio` (the similarity primitive both
scorers call) and the two scorers built on it:
`Step2Context._calculate_similarity`
(`src/good_night/dreaming/tools/step2_tools.py`) and
`ComparisonStep._calculate_relevance`
(`src/good_night/dreaming/step2_comparison.py`).

`ratio` is `2·M/T` where `T` is the total length and `M` the total size
of the matching blocks found by the Ratcliff–Obershelp recursion:
repeatedly take the longest common contiguous block (ties broken by the
earliest start in `a`, then in `b`) and recurse on both sides.  The
`autojunk` heuristic of `SequenceMatcher` only activates for sequences of
length ≥ 200 and is not modelled. -/

/-- Length of the run of equal characters at the heads of two lists. -/
def commonRun : List Char → List Char → Nat
  | x :: xs, y :: ys => if x = y then commonRun xs ys + 1 else 0
  | _, _ => 0

/-- `SequenceMatcher.find_longest_match` over whole sequences: the
`(i, j, size)` of the longest common contiguous block, ties broken by
smallest `i`, then smallest `j` (candidates are generated in that order
and only strictly longer ones replace the current best). -/
def findLongestMatch (a b : List Char) : Nat × Nat × Nat :=
  let candidates := (List.range (a.length + 1)).flatMap fun i =>
    (List.range (b.length + 1)).map fun j => (i, j, commonRun (a.drop i) (b.drop j))
  candidates.foldl (fun best c => if c.2.2 > best.2.2 then c else best) (0, 0, 0)

/-- Total size of the matching blocks (`get_matching_blocks` recursion).
The fuel is spent once per recursion level; every level with a non-empty
block shrinks the combined length of each recursive call by at least two,
so `a.length + b.length` fuel never runs out. -/
def matchingBlocksTotal : Nat → List Char → List Char → Nat
  | 0, _, _ => 0
  | fuel + 1, a, b =>
    let m := findLongestMatch a b
    if m.2.2 = 0 then 0
    else
      matchingBlocksTotal fuel (a.take m.1) (b.take m.2.1) + m.2.2
        + matchingBlocksTotal fuel (a.drop (m.1 + m.2.2)) (b.drop (m.2.1 + m.2.2))

/-- Total matched size `M` for `ratio`. -/
def matchingTotal (a b : List Char) : Nat :=
  matchingBlocksTotal (a.length + b.length) a b

/-- `SequenceMatcher(None, a, b).ratio()`: `2·M/T`, and 1.0 when both
sequences are empty (`difflib._calculate_ratio`). -/
def seqRatio (a b : List Char) : ℚ :=
  let total := a.length + b.length
  if total = 0 then 1 else (2 * matchingTotal a b : ℚ) / total

/-- Python `s.lower()` (ASCII case mapping, character by character). -/
def pyLower (s : String) : String :=
  String.mk (s.data.map Char.toLower)

/-- Python `s[:n]`. -/
def pyTake (n : Nat) (s : String) : String :=
  String.mk (s.data.take n)

/-- Python `needle in haystack` on character lists. -/
def isSubChars (needle : List Char) : List Char → Bool
  | [] => needle.isEmpty
  | c :: rest =>
    if (c :: rest).take needle.length == needle then true
    else isSubChars needle rest

/-- Python substring test `needle in haystack`. -/
def pyContains (haystack needle : String) : Bool :=
  isSubChars needle.data haystack.data

/-- `IssueType.value` (`dreaming/report.py`). -/
def IssueType.value : IssueType → String
  | .repeatedRequest => "repeated_request"
  | .frustrationSignal => "frustration_signal"
  | .styleMismatch => "style_mismatch"
  | .capabilityGap => "capability_gap"
  | .knowledgeGap => "knowledge_gap"
  | .other => "other"

/-- The issue fields the Stage B scorers read. -/
structure ScoredIssue where
  type : IssueType
  title : String
  description : String
  deriving DecidableEq

/-- The past-action fields the Stage B scorers read: the `content` dict,
the rationale and the past issue refs. -/
structure PastAction where
  content : List (String × String)
  rationale : String
  issueRefs : List String
  deriving DecidableEq

/-- `Step2Context._calculate_similarity` (the
`compare_issue_to_resolutions` scorer): 0.4·title + 0.3·description
(description lowercased and cut at 500 characters) + 0.3·rationale
(description vs rationale, cut at 300), the title and description terms
only when the content dict is non-empty and has the key, the rationale
term only when the rationale is non-empty; the sum is clamped at 1.
There is no issue-kind bonus term. -/
def calculateSimilarity (issue : ScoredIssue) (action : PastAction) : ℚ :=
  let contentScores : List ℚ :=
    if action.content ≠ [] then
      (match action.content.lookup "title" with
       | some t => [seqRatio (pyLower issue.title).data (pyLower t).data * 0.4]
       | none => [])
      ++ (match action.content.lookup "description" with
       | some d =>
         [seqRatio (pyTake 500 (pyLower issue.description)).data
            (pyTake 500 (pyLower d)).data * 0.3]
       | none => [])
    else []
  let scores := contentScores
    ++ (if action.rationale ≠ "" then
        [seqRatio (pyTake 300 (pyLower issue.description)).data
           (pyTake 300 (pyLower action.rationale)).data * 0.3]
      else [])
  min scores.sum 1

/-- `ComparisonStep._calculate_relevance` (the non-agentic fallback
scorer), called once per past issue ref: 0.4·title + 0.3·description +
0.3·rationale (all untruncated, the rationale term unconditional since
the dataclass always has the attribute), plus 0.2 when the issue's kind
string occurs in the lowercased issue ref; the sum is clamped at 1. -/
def calculateRelevance (issue : ScoredIssue) (action : PastAction)
    (issueRef : String) : ℚ :=
  let s1 : List ℚ :=
    match action.content.lookup "title" with
    | some t => [seqRatio (pyLower issue.title).data (pyLower t).data * 0.4]
    | none => []
  let s2 := s1 ++ (match action.content.lookup "description" with
    | some d =>
      [seqRatio (pyLower issue.description).data (pyLower d).data * 0.3]
    | none => [])
  let s3 := s2
    ++ [seqRatio (pyLower issue.description).data (pyLower action.rationale).data * 0.3]
  let s4 := s3
    ++ (if pyContains (pyLower issueRef) issue.type.value then [(0.2 : ℚ)] else [])
  min s4.sum 1

/-- Modelled from the spec: "Lexical comparison scores Issue ↔ past
action with a weighted sum: 0.4·title-similarity +
0.3·description-similarity + 0.3·rationale-similarity + 0.2 if issue kind
string appears in a past issue ref.  Similarity is the ratio of longest
common subsequences (normalized).  Final score clamped to [0,1]." -/
def specLexicalScore (issue : ScoredIssue) (action : PastAction)
    (issueRef : String) : ℚ :=
  min (0.4 * seqRatio (pyLower issue.title).data
        (pyLower ((action.content.lookup "title").getD "")).data
    + 0.3 * seqRatio (pyLower issue.description).data
        (pyLower ((action.content.lookup "description").getD "")).data
    + 0.3 * seqRatio (pyLower issue.description).data
        (pyLower action.rationale).data
    + (if pyContains (pyLower issueRef) issue.type.value then 0.2 else 0)) 1

/-- The issue on which claim C2 is evaluated. -/
def exampleScoredIssue : ScoredIssue :=
  { type := .other, title := "ab", description := "xx" }

/-- The past action on which claim C2 is evaluated: its only issue ref
contains the kind string `"other"`. -/
def examplePastAction : PastAction :=
  { content := [("title", "ab"), ("description", "yy")]
    rationale := "zz"
    issueRefs := ["issue-other-1"] }

/-! ## CLAUDE.md preferences handler

Embeds `ClaudeMdHandler` (`src/good_night/artifacts/claude_md_handler.py`):
`_parse_existing_sections`, the `new_sections` construction and merge loop
of `_merge_sections`, and the rewrite.  `update()` on an existing file is
`_merge_sections(parse(text), content)`.

String splitting, joining and stripping are implemented on the
character-list view (`String.data`).  The content mapping is modelled by
the shapes the handler distinguishes: an optional `"preferences"` list
whose elements are dicts (`{"section": ..., "items": [...]}`) or plain
strings, plus the remaining key/value entries in dict order, each value a
list or a string (the keys `"name"`/`"description"`, skipped by the
handler, are omitted from the model). -/

/-- The `{section: [lines]}` buckets, in dict insertion order. -/
abbrev Sections := List (String × List String)

/-- A default Python whitespace character (`str.strip`, ASCII range). -/
def isPyWs (c : Char) : Bool :=
  c == ' ' || c == '\t' || c == '\n' || c == '\r' || c == '\x0b' || c == '\x0c'

/-- Python `s.strip()` on characters. -/
def pyStripChars (cs : List Char) : List Char :=
  ((cs.dropWhile isPyWs).reverse.dropWhile isPyWs).reverse

/-- Python `s.strip()`. -/
def pyStrip (s : String) : String :=
  String.mk (pyStripChars s.data)

/-- Python `s.split("\n")` on characters (empty pieces kept; the empty
string yields one empty piece). -/
def splitNlChars : List Char → List (List Char)
  | [] => [[]]
  | c :: rest =>
    if c = '\n' then [] :: splitNlChars rest
    else
      match splitNlChars rest with
      | [] => [[c]]
      | piece :: pieces => (c :: piece) :: pieces

/-- Python `content.split("\n")`. -/
def splitLines (s : String) : List String :=
  (splitNlChars s.data).map String.mk

/-- Python `"\n".join(lines)` on characters. -/
def joinNlChars : List (List Char) → List Char
  | [] => []
  | [l] => l
  | l :: ls => l ++ '\n' :: joinNlChars ls

/-- Python `"\n".join(lines)`. -/
def joinLines (ls : List String) : String :=
  String.mk (joinNlChars (ls.map String.data))

/-- The `if current_items: sections[current_section] = current_items`
commit of the parser (a dict assignment: insert-or-overwrite in place). -/
def commitPending (sections : Sections) (currentSection : String)
    (currentItems : List String) : Sections :=
  if currentItems ≠ [] then upsertAssoc sections currentSection currentItems
  else sections

/-- `ClaudeMdHandler._parse_existing_sections`, line by line: a `## `
header commits the pending items under the current section name and
switches to the stripped header text; any other non-blank line is
collected; blank lines are skipped; the pending items are committed at
the end. -/
def parseLinesAux : List String → String → List String → Sections → Sections
  | [], currentSection, currentItems, sections =>
    commitPending sections currentSection currentItems
  | line :: rest, currentSection, currentItems, sections =>
    if pyStartsWith line "## " then
      parseLinesAux rest (pyStrip (String.mk (line.data.drop 3))) []
        (commitPending sections currentSection currentItems)
    else if pyStrip line ≠ "" then
      parseLinesAux rest currentSection (currentItems ++ [line]) sections
    else
      parseLinesAux rest currentSection currentItems sections

/-- The parser's net effect on a rendered block list: commit the pending
bucket before each section, then commit the final one. -/
def parseBlocksSpec : Sections → Sections × String × List String → Sections
  | [], st => commitPending st.1 st.2.1 st.2.2
  | e :: rest, st =>
    parseBlocksSpec rest (commitPending st.1 st.2.1 st.2.2, e.1, e.2)

/-- `ClaudeMdHandler._parse_existing_sections`. -/
def parseExistingSections (content : String) : Sections :=
  parseLinesAux (splitLines content) "General" [] []

/-- One element of the content's `"preferences"` list. -/
inductive PrefItem where
  | dictItem (s : Option String) (items : List String)
  | strItem (s : String)
  deriving DecidableEq

/-- A content value for a non-`"preferences"` key. -/
inductive PrefValue where
  | strVal (s : String)
  | listVal (items : List String)
  deriving DecidableEq

/-- The content mapping passed to the preferences merge. -/
structure PrefContent where
  preferences : Option (List PrefItem) := none
  entries : List (String × PrefValue) := []
  deriving DecidableEq

/-- Python `str.title()` (ASCII): the first alphabetic character of each
alphabetic run is uppercased, the rest lowercased. -/
def pyTitleAux : Bool → List Char → List Char
  | _, [] => []
  | prevAlpha, c :: rest =>
    (if c.isAlpha then (if prevAlpha then c.toLower else c.toUpper) else c)
      :: pyTitleAux c.isAlpha rest

/-- Python `s.title()`. -/
def pyTitle (s : String) : String :=
  String.mk (pyTitleAux false s.data)

/-- `key.replace("_", " ").title()` in `_merge_sections`. -/
def keyToSection (key : String) : String :=
  pyTitle (String.mk (key.data.map fun c => if c = '_' then ' ' else c))

/-- `new_sections` bucket creation-and-extension
(`if section not in new_sections: new_sections[section] = []` followed by
`extend`/`append`). -/
def extendSection (ns : Sections) (s : String) (items : List String) : Sections :=
  match ns.lookup s with
  | some old => upsertAssoc ns s (old ++ items)
  | none => ns ++ [(s, items)]

/-- The `new_sections` dict built from the content by `_merge_sections`:
the `"preferences"` list first (dict items bucketed under their section
or `General`, plain strings under `General`), then the remaining entries
under their title-cased key, list values as `- ` bullets and string
values verbatim. -/
def buildNewSections (c : PrefContent) : Sections :=
  let ns1 := match c.preferences with
    | none => []
    | some prefs =>
      prefs.foldl
        (fun ns p =>
          match p with
          | .dictItem sec items =>
            extendSection ns (sec.getD "General") (items.map fun it => "- " ++ it)
          | .strItem s => extendSection ns "General" ["- " ++ s])
        []
  c.entries.foldl
    (fun ns e =>
      match e.2 with
      | .listVal items =>
        extendSection ns (keyToSection e.1) (items.map fun it => "- " ++ it)
      | .strVal v => extendSection ns (keyToSection e.1) [v])
    ns1

/-- The merge loop of `_merge_sections`: into an existing bucket, append
only the new items absent from it (membership against the bucket as it
was before this section's loop); unknown sections are appended at the
end. -/
def addSectionItems (merged : Sections) (s : String) (items : List String) :
    Sections :=
  match merged.lookup s with
  | some old =>
    upsertAssoc merged s (old ++ items.filter fun it => ¬ old.contains it)
  | none => merged ++ [(s, items)]

/-- `merged = dict(existing)` plus the merge loop over `new_sections`. -/
def mergeAssoc (existing ns : Sections) : Sections :=
  ns.foldl (fun merged e => addSectionItems merged e.1 e.2) existing

/-- The lines the rebuild loop of `_merge_sections` emits for one
section (an empty `General` bucket is suppressed). -/
def blockOf (e : String × List String) : List String :=
  if e.1 ≠ "General" ∨ e.2 ≠ [] then ("## " ++ e.1) :: e.2 ++ [""] else []

/-- The full line list of the rebuilt file. -/
def renderLines (merged : Sections) : List String :=
  ["# Project Preferences", ""] ++ merged.flatMap blockOf

/-- `"\n".join(lines).strip() + "\n"`. -/
def renderSections (merged : Sections) : String :=
  pyStrip (joinLines (renderLines merged)) ++ "\n"

/-- `ClaudeMdHandler._merge_sections`. -/
def mergeSections (existing : Sections) (c : PrefContent) : String :=
  renderSections (mergeAssoc existing (buildNewSections c))

/-- `ClaudeMdHandler.update` on an existing file: parse, merge, rewrite. -/
def updateClaudeMd (existingText : String) (c : PrefContent) : String :=
  mergeSections (parseExistingSections existingText) c

/-- An item line safe for the parse/render round trip: non-empty, fixed
under `strip()`, not a `## ` header, and newline-free. -/
def SafeLine (l : String) : Prop :=
  pyStrip l = l ∧ l ≠ "" ∧ pyStartsWith l "## " = false ∧ '\n' ∉ l.data

/-- A section name safe for the round trip: non-empty, fixed under
`strip()`, newline-free. -/
def CleanKey (s : String) : Prop :=
  pyStrip s = s ∧ s ≠ "" ∧ '\n' ∉ s.data

/-- Well-formedness of a merged section map under which the rebuilt file
re-parses to exactly the same map: the first bucket is `General` and
every bucket is non-empty with clean name and safe item lines, the names
pairwise distinct. -/
def GoodSections (m : Sections) : Prop :=
  (m.map Prod.fst).head? = some "General"
  ∧ (m.map Prod.fst).Nodup
  ∧ ∀ e ∈ m, e.2 ≠ [] ∧ CleanKey e.1 ∧ ∀ l ∈ e.2, SafeLine l

/-- The existing CLAUDE.md text on which claim C8 is evaluated: a file
with no text before its first section header. -/
def exampleMdText : String := "## Style\n- Use tabs\n"

/-- The preferences content on which claim C8 is evaluated. -/
def examplePrefContent : PrefContent :=
  { entries := [("style", PrefValue.listVal ["Use tabs"])] }

/-- An existing CLAUDE.md starting with the standard title line, on which
claim C8's amended theorem is witnessed. -/
def exampleTitledMdText : String :=
  "# Project Preferences\n\n## Style\n- Use tabs\n"

end GoodNight

namespace GoodNight

/-! ### Theorems for claim C3 -/

/-- C3 counterexample: the claim says a best score of exactly 0.85 yields
`already_resolved`, but both recommendation functions return the
`recurring` recommendation at exactly 0.85 (the source tests
`best_score > 0.85`, strictly). -/
theorem C3_counterexample :
    getRecommendation [(0.85 : ℚ)] =
      "recurring - Similar issue exists but may need updated resolution"
    ∧ getRecommendation [(0.85 : ℚ)] ≠
      "already_resolved - Very similar issue was previously resolved"
    ∧ getVectorRecommendation [(0.85 : ℚ)] =
      "recurring - Semantically similar issue exists, may need updated resolution" := by
  have h1 : ¬ ((0.85 : ℚ) > 0.85) := by norm_num
  have h2 : (0.85 : ℚ) > 0.6 := by norm_num
  refine ⟨?_, ?_, ?_⟩
  · simp only [getRecommendation]
    rw [if_neg h1, if_pos h2]
  · simp only [getRecommendation]
    rw [if_neg h1, if_pos h2]
    decide
  · simp only [getVectorRecommendation]
    rw [if_neg h1, if_pos h2]

/-- C3 (amended): for a non-empty list of matches, the recommendation is
determined by the best score with strict thresholds: strictly above 0.85 →
`already_resolved`; strictly above 0.6 and at most 0.85 → `recurring`
(in particular 0.84 and exactly 0.85); at most 0.6 → `new`
(in particular 0.59), for both the lexical and the vector recommendation. -/
theorem C3_thresholds (best : ℚ) (rest : List ℚ) :
    (best > 0.85 →
      getRecommendation (best :: rest) =
        "already_resolved - Very similar issue was previously resolved"
      ∧ getVectorRecommendation (best :: rest) =
        "already_resolved - Very similar issue was previously resolved (semantic match)")
    ∧ (0.6 < best → best ≤ 0.85 →
      getRecommendation (best :: rest) =
        "recurring - Similar issue exists but may need updated resolution"
      ∧ getVectorRecommendation (best :: rest) =
        "recurring - Semantically similar issue exists, may need updated resolution")
    ∧ (best ≤ 0.6 →
      getRecommendation (best :: rest) =
        "new - Only weak matches found, consider this a new issue"
      ∧ getVectorRecommendation (best :: rest) =
        "new - Only weak semantic matches found") := by
  refine ⟨fun h => ?_, fun h1 h2 => ?_, fun h => ?_⟩ <;>
    simp only [getRecommendation, getVectorRecommendation] <;>
    constructor <;>
    first
      | rw [if_pos h]
      | rw [if_neg (by linarith), if_pos h1]
      | rw [if_neg (by linarith), if_neg (by linarith)]

/-- C3 witness: the amended thresholds evaluated at the boundary inputs
0.9, 0.84 and 0.59. -/
theorem C3_thresholds_witness :
    getRecommendation [(0.9 : ℚ)] =
      "already_resolved - Very similar issue was previously resolved"
    ∧ getRecommendation [(0.84 : ℚ)] =
      "recurring - Similar issue exists but may need updated resolution"
    ∧ getVectorRecommendation [(0.59 : ℚ)] =
      "new - Only weak semantic matches found" :=
  ⟨((C3_thresholds (0.9 : ℚ) []).1 (by norm_num)).1,
   ((C3_thresholds (0.84 : ℚ) []).2.1 (by norm_num) (by norm_num)).1,
   ((C3_thresholds (0.59 : ℚ) []).2.2 (by norm_num)).2⟩

/-! ### Theorems for claim C1 -/

/-- C1 (code bug): in a non-dry-run cycle where the connector yields one
conversation and Stage A reports zero issues, the loop body returns with
the whole world — in particular the connector's persistent state —
unchanged: `last_processed` is never set to the conversations' latest
timestamp and `conversations_processed` stays 0.  The `continue` taken
when `report.issues` is empty jumps past the state-update block at the
bottom of the loop, although that block's own comment says the state
should advance "even if no issues found". -/
theorem C1_no_issues_skips_state_update :
    (processConnector false 7 exampleC1Input exampleC1World).1 = exampleC1World
    ∧ exampleC1Input.conversations ≠ []
    ∧ exampleC1Input.step1Issues = 0
    ∧ ((processConnector false 7 exampleC1Input exampleC1World).1.connectors.lookup
        "claude-code") = some { lastProcessed := none, conversationsProcessed := 0 } := by
  refine ⟨rfl, by decide, rfl, rfl⟩

/-! ### Theorems for claim C5 -/

/-- `OnlyDryRunAppends` is reflexive. -/
theorem onlyDryRunAppends_refl (w : World) : OnlyDryRunAppends w w :=
  ⟨rfl, rfl, rfl, rfl, rfl, [], by simp⟩

/-- `OnlyDryRunAppends` is transitive. -/
theorem onlyDryRunAppends_trans {w1 w2 w3 : World}
    (h12 : OnlyDryRunAppends w1 w2) (h23 : OnlyDryRunAppends w2 w3) :
    OnlyDryRunAppends w1 w3 := by
  obtain ⟨c12, d12, v12, a12, r12, e12, h12⟩ := h12
  obtain ⟨c23, d23, v23, a23, r23, e23, h23⟩ := h23
  exact ⟨c23.trans c12, d23.trans d12, v23.trans v12, a23.trans a12,
    r23.trans r12, e12 ++ e23, by rw [h23, h12, List.append_assoc]⟩

/-- The per-connector loop body of a dry-run cycle can only append to the
dry-runs directory. -/
theorem processConnector_dry (now : Int) (inp : ConnectorCycleInput) (w : World) :
    OnlyDryRunAppends w (processConnector true now inp w).1 := by
  unfold processConnector resolutionGenerate saveResolution
  by_cases h1 : inp.conversations.isEmpty
  · simp only [h1, if_true]
    exact onlyDryRunAppends_refl w
  · simp only [h1, if_false, Bool.not_true, Bool.and_false, if_true]
    by_cases h2 : inp.step1Issues = 0
    · simp only [h2, if_true]
      exact onlyDryRunAppends_refl w
    · simp only [h2, if_false]
      by_cases h3 : inp.issuesToResolve = 0
      · simp only [h3, if_true]
        exact onlyDryRunAppends_refl w
      · simp only [h3, if_false]
        cases h4 : inp.resolution with
        | none => exact onlyDryRunAppends_refl w
        | some r => exact ⟨rfl, rfl, rfl, rfl, rfl, [r], rfl⟩

/-- Folding the dry-run loop body preserves the frame. -/
theorem cycleFold_dry (now : Int) :
    ∀ (inputs : List ConnectorCycleInput) (acc : World × Nat × Nat × Nat),
      OnlyDryRunAppends acc.1 ((inputs.foldl (cycleStep true now) acc).1) := by
  intro inputs
  induction inputs with
  | nil => exact fun acc => onlyDryRunAppends_refl acc.1
  | cons inp rest ih =>
    intro acc
    exact onlyDryRunAppends_trans (processConnector_dry now inp acc.1)
      (ih (cycleStep true now acc inp))

/-- C5: a cycle run with `dry_run=true` leaves the persistent connector
states, the dreaming counters, the vector index, the artifact files and
the resolutions directory exactly as they were; its only write is a
possible append of remediation JSON records to the dry-runs directory. -/
theorem C5_dry_run_frame (runId : String) (now : Int)
    (inputs : List ConnectorCycleInput) (w : World) :
    (runCycle true runId now inputs w).connectors = w.connectors
    ∧ (runCycle true runId now inputs w).dreaming = w.dreaming
    ∧ (runCycle true runId now inputs w).vectorIndex = w.vectorIndex
    ∧ (runCycle true runId now inputs w).artifactWrites = w.artifactWrites
    ∧ (runCycle true runId now inputs w).resolutionsDir = w.resolutionsDir
    ∧ ∃ extra, (runCycle true runId now inputs w).dryRunsDir = w.dryRunsDir ++ extra := by
  have key : OnlyDryRunAppends w ((inputs.foldl (cycleStep true now) (w, 0, 0, 0)).1) :=
    cycleFold_dry now inputs (w, 0, 0, 0)
  have hrun : runCycle true runId now inputs w =
      (inputs.foldl (cycleStep true now) (w, 0, 0, 0)).1 := by
    unfold runCycle
    simp only [Bool.not_true]
    rw [if_neg (show ¬ (false = true) by decide)]
    exact ite_self _
  rw [hrun]
  exact key

/-! ### Theorems for claim C9 -/

/-- Membership after an association-list upsert: the pair was already
present or its key is the upserted key. -/
theorem mem_upsertAssoc {α : Type} {l : List (String × α)} {key : String}
    {val : α} {p : String × α} (hp : p ∈ upsertAssoc l key val) :
    p ∈ l ∨ p.1 = key := by
  induction l with
  | nil =>
    simp only [upsertAssoc, List.mem_singleton] at hp
    exact Or.inr (by rw [hp])
  | cons hd tl ih =>
    by_cases hk : hd.1 = key
    · simp only [upsertAssoc, hk, if_pos] at hp
      rcases List.mem_cons.mp hp with h | h
      · exact Or.inr (by rw [h])
      · exact Or.inl (List.mem_cons_of_mem _ h)
    · rw [show (hd = (hd.1, hd.2)) from rfl] at hp
      simp only [upsertAssoc, if_neg hk] at hp
      rcases List.mem_cons.mp hp with h | h
      · exact Or.inl (by rw [h]; exact List.mem_cons_self _ _)
      · rcases ih h with h1 | h1
        · exact Or.inl (List.mem_cons_of_mem _ h1)
        · exact Or.inr h1

/-- One filtering decision preserves the disjointness invariant. -/
theorem disjoint_applyStep2Op {st : Step2State} (hst : DisjointDecisions st)
    (op : Step2Op) : DisjointDecisions (applyStep2Op st op) := by
  cases op with
  | includeOp issueId rationale =>
    show DisjointDecisions (includeIssue st issueId rationale).1
    unfold includeIssue
    cases hfind : findIssue st.issues issueId with
    | none => exact hst
    | some issue =>
      intro x hx reason hmem
      simp only [List.mem_filter, bne_iff_ne, ne_eq] at hmem
      obtain ⟨hmem, hne⟩ := hmem
      have hx2 : x ∈ (if st.includedIssues.contains issue.id = true then
          st.includedIssues else st.includedIssues ++ [issue.id]) := hx
      have hx' : x ∈ st.includedIssues := by
        by_cases hc : st.includedIssues.contains issue.id = true
        · rw [if_pos hc] at hx2
          exact hx2
        · rw [if_neg hc] at hx2
          rcases List.mem_append.mp hx2 with h | h
          · exact h
          · exact absurd (List.mem_singleton.mp h) (by simpa using hne)
      exact hst x hx' reason hmem
  | excludeOp issueId reason =>
    show DisjointDecisions (excludeIssue st issueId reason).1
    unfold excludeIssue
    cases hfind : findIssue st.issues issueId with
    | none => exact hst
    | some issue =>
      intro x hx r hmem
      simp only [List.mem_filter, bne_iff_ne, ne_eq] at hx
      obtain ⟨hx, hne⟩ := hx
      rcases mem_upsertAssoc hmem with h | h
      · exact hst x hx r h
      · exact hne h

/-- Any sequence of filtering decisions preserves the invariant. -/
theorem disjoint_runStep2Ops (ops : List Step2Op) :
    ∀ (st : Step2State), DisjointDecisions st →
      DisjointDecisions (runStep2Ops st ops) := by
  induction ops with
  | nil => exact fun st hst => hst
  | cons op rest ih =>
    exact fun st hst => ih (applyStep2Op st op) (disjoint_applyStep2Op hst op)

/-- C9: after any sequence of `include_issue` / `exclude_issue` calls
starting from the fresh Stage B context, no issue id is both in the
included set and a key of the excluded dict — `include_issue` first
deletes the id from the excluded dict, `exclude_issue` first discards it
from the included set, so the most recent decision wins. -/
theorem C9_included_excluded_disjoint (issues : List EnrichedIssueRec)
    (ops : List Step2Op) (issueId : String) :
    ((runStep2Ops (initStep2State issues) ops).includedIssues.contains issueId
      && (runStep2Ops (initStep2State issues) ops).excludedIssues.any
          (fun p => p.1 == issueId)) = false := by
  have hd : DisjointDecisions (runStep2Ops (initStep2State issues) ops) :=
    disjoint_runStep2Ops ops (initStep2State issues)
      (fun x hx => absurd hx (List.not_mem_nil x))
  by_contra hcontra
  rw [Bool.not_eq_false, Bool.and_eq_true] at hcontra
  obtain ⟨h1, h2⟩ := hcontra
  have h1' : issueId ∈ (runStep2Ops (initStep2State issues) ops).includedIssues := by
    simpa using h1
  rw [List.any_eq_true] at h2
  obtain ⟨p, hp, hpe⟩ := h2
  rw [beq_iff_eq] at hpe
  exact hd issueId h1' p.2 (by rw [← hpe]; exact hp)

/-! ### Theorems for claim C10 -/

/-- C10: `report_issue` never rejects an unrecognized enum value — an
issue type outside the taxonomy is coerced to `other` and an unknown
severity to `medium`; the call succeeds, the issue is enrolled at the end
of the reported list, and its confidence is exactly 0.8 regardless of
input. -/
theorem C10_report_issue_coercions (ctx : Step1Context) (freshId : String)
    (type severity title description : String) (evidence : List EvidenceInput)
    (suggestedResolution : Option String) (localChange : Bool) :
    (reportIssue ctx freshId type severity title description evidence
        suggestedResolution localChange).2.1.confidence = 0.8
    ∧ (reportIssue ctx freshId type severity title description evidence
        suggestedResolution localChange).1.reportedIssues =
      ctx.reportedIssues ++ [(reportIssue ctx freshId type severity title
        description evidence suggestedResolution localChange).2.1]
    ∧ (reportIssue ctx freshId type severity title description evidence
        suggestedResolution localChange).2.2 =
      .reportOk freshId title (ctx.reportedIssues.length + 1)
    ∧ (type ∉ ["repeated_request", "frustration_signal", "style_mismatch",
        "capability_gap", "knowledge_gap", "other"] →
      (reportIssue ctx freshId type severity title description evidence
        suggestedResolution localChange).2.1.type = .other)
    ∧ (severity ∉ ["low", "medium", "high", "critical"] →
      (reportIssue ctx freshId type severity title description evidence
        suggestedResolution localChange).2.1.severity = .medium) := by
  refine ⟨rfl, rfl, rfl, fun h => ?_, fun h => ?_⟩
  · have h1 : type ≠ "repeated_request" := fun he => h (by rw [he]; decide)
    have h2 : type ≠ "frustration_signal" := fun he => h (by rw [he]; decide)
    have h3 : type ≠ "style_mismatch" := fun he => h (by rw [he]; decide)
    have h4 : type ≠ "capability_gap" := fun he => h (by rw [he]; decide)
    have h5 : type ≠ "knowledge_gap" := fun he => h (by rw [he]; decide)
    have h6 : type ≠ "other" := fun he => h (by rw [he]; decide)
    show issueTypeOf type = .other
    simp only [issueTypeOf, if_neg h1, if_neg h2, if_neg h3, if_neg h4,
      if_neg h5, if_neg h6]
  · have h1 : severity ≠ "low" := fun he => h (by rw [he]; decide)
    have h2 : severity ≠ "medium" := fun he => h (by rw [he]; decide)
    have h3 : severity ≠ "high" := fun he => h (by rw [he]; decide)
    have h4 : severity ≠ "critical" := fun he => h (by rw [he]; decide)
    show severityOf severity = .medium
    simp only [severityOf, if_neg h1, if_neg h2, if_neg h3, if_neg h4]

/-- C10 witness: reporting an issue with the unrecognized type
`"bogus_type"` and severity `"extreme"` still succeeds, coerced to
`other` / `medium`, with confidence 0.8. -/
theorem C10_report_issue_coercions_witness :
    (reportIssue exampleStep1Ctx "issue-1" "bogus_type" "extreme" "t" "d" []
        none false).2.1.confidence = 0.8
    ∧ (reportIssue exampleStep1Ctx "issue-1" "bogus_type" "extreme" "t" "d" []
        none false).2.1.type = .other
    ∧ (reportIssue exampleStep1Ctx "issue-1" "bogus_type" "extreme" "t" "d" []
        none false).2.1.severity = .medium :=
  ⟨(C10_report_issue_coercions exampleStep1Ctx "issue-1" "bogus_type" "extreme"
      "t" "d" [] none false).1,
   (C10_report_issue_coercions exampleStep1Ctx "issue-1" "bogus_type" "extreme"
      "t" "d" [] none false).2.2.2.1 (by decide),
   (C10_report_issue_coercions exampleStep1Ctx "issue-1" "bogus_type" "extreme"
      "t" "d" [] none false).2.2.2.2 (by decide)⟩

/-! ### Theorems for claim C4 -/

/-- In a finalized context `create_resolution_action` returns an error
document and leaves the state untouched, whatever the arguments. -/
theorem create_after_finalize {st : Step3State} (h : st.finalized = true)
    (freshId artifactType name : String) (content : List (String × String))
    (issueRefs : List String) (targetPath : Option String)
    (operation rationale priority : String) :
    (createResolutionAction st freshId artifactType name content issueRefs
      targetPath operation rationale priority).1 = st
    ∧ (createResolutionAction st freshId artifactType name content issueRefs
      targetPath operation rationale priority).2.isError = true := by
  unfold createResolutionAction
  simp only [h, if_true]
  split_ifs <;> exact ⟨rfl, rfl⟩

/-- In a finalized context every Stage C tool call leaves the state
untouched. -/
theorem applyStep3Op_finalized {st : Step3State} (h : st.finalized = true)
    (op : Step3Op) : (applyStep3Op st op).1 = st := by
  cases op with
  | createOp freshId artifactType name content issueRefs targetPath
      operation rationale priority =>
    exact (create_after_finalize h freshId artifactType name content issueRefs
      targetPath operation rationale priority).1
  | removeOp actionId =>
    show (removeAction st actionId).1 = st
    unfold removeAction
    rw [if_pos h]
  | finalizeOp =>
    show (finalizeResolution st).1 = st
    unfold finalizeResolution
    rw [if_pos h]

/-- In a finalized context whole call sequences leave the state
untouched. -/
theorem runStep3Ops_finalized {st : Step3State} (h : st.finalized = true)
    (ops : List Step3Op) : runStep3Ops st ops = st := by
  induction ops with
  | nil => rfl
  | cons op rest ih =>
    show runStep3Ops (applyStep3Op st op).1 rest = st
    rw [applyStep3Op_finalized h op]
    exact ih

/-- C4: once `finalize_resolution` has succeeded the draft is frozen —
every later `create_resolution_action` or `remove_action` call returns an
error and no sequence of tool calls changes the state; conversely a
finalization whose validation fails (or that finds no actions) returns
`success=false` with the validation errors and leaves the draft open and
unchanged, and a successful finalization is exactly the transition that
sets the frozen flag. -/
theorem C4_finalize_freezes (st : Step3State) :
    (st.finalized = true →
      (∀ (freshId artifactType name : String) (content : List (String × String))
          (issueRefs : List String) (targetPath : Option String)
          (operation rationale priority : String),
        (createResolutionAction st freshId artifactType name content issueRefs
          targetPath operation rationale priority).1 = st
        ∧ (createResolutionAction st freshId artifactType name content issueRefs
          targetPath operation rationale priority).2.isError = true)
      ∧ (∀ actionId, removeAction st actionId =
          (st, .errorDoc "Resolution already finalized"))
      ∧ (∀ ops : List Step3Op, runStep3Ops st ops = st))
    ∧ (st.finalized = false → st.resolutionActions ≠ [] →
      ((st.resolutionActions.map (validateAction st)).flatten ≠ [] →
        finalizeResolution st =
          (st, .finalizeFail "Validation failed"
            (st.resolutionActions.map (validateAction st)).flatten))
      ∧ ((st.resolutionActions.map (validateAction st)).flatten = [] →
        finalizeResolution st =
          ({ st with finalized := true },
            .finalizeOk ("Resolution finalized with "
              ++ toString st.resolutionActions.length ++ " actions") st.dryRun))) := by
  constructor
  · intro h
    refine ⟨fun freshId artifactType name content issueRefs targetPath
        operation rationale priority =>
      create_after_finalize h freshId artifactType name content issueRefs
        targetPath operation rationale priority, fun actionId => ?_,
      runStep3Ops_finalized h⟩
    unfold removeAction
    rw [if_pos h]
  · intro h hne
    constructor
    · intro herr
      unfold finalizeResolution
      rw [if_neg (by rw [h]; decide), if_neg hne, if_pos herr]
    · intro herr
      unfold finalizeResolution
      rw [if_neg (by rw [h]; decide), if_neg hne, if_neg (by rw [herr]; decide)]

/-- C4 witness: in the example context, finalizing a valid draft succeeds
and freezes the state (afterwards `remove_action` errors and call
sequences are inert), finalizing an invalid draft fails with the missing
required-field errors and leaves the draft open. -/
theorem C4_finalize_freezes_witness :
    finalizeResolution exampleOpenValidState =
      (exampleFinalizedState, .finalizeOk "Resolution finalized with 1 actions" false)
    ∧ removeAction exampleFinalizedState "aaaa0000" =
      (exampleFinalizedState, .errorDoc "Resolution already finalized")
    ∧ runStep3Ops exampleFinalizedState [.removeOp "aaaa0000", .finalizeOp] =
      exampleFinalizedState
    ∧ finalizeResolution exampleOpenInvalidState =
      (exampleOpenInvalidState,
        .finalizeFail "Validation failed"
          ["Action bbbb1111: skill content missing 'description'",
           "Action bbbb1111: skill content missing 'instructions'"]) := by
  refine ⟨?_, ?_, ?_, ?_⟩
  · have h := ((C4_finalize_freezes exampleOpenValidState).2
      rfl (by decide)).2 (by decide)
    simpa using h
  · exact ((C4_finalize_freezes exampleFinalizedState).1 rfl).2.1 "aaaa0000"
  · exact ((C4_finalize_freezes exampleFinalizedState).1 rfl).2.2
      [.removeOp "aaaa0000", .finalizeOp]
  · have h := ((C4_finalize_freezes exampleOpenInvalidState).2
      rfl (by decide)).1 (by decide)
    simpa using h

/-! ### Theorems for claim C7 -/

/-- C7 counterexample: the Stage A conversation lookup is an exact dict
`get` with no prefix fallback, so calling `get_messages` with the unique
8-character short form `"abcdefgh"` of the conversation id
`"abcdefgh-1234"` returns a not-found error instead of resolving to the
same record as the full id. -/
theorem C7_counterexample :
    getMessages exampleStep1Ctx "abcdefgh" 0 50 =
      .errorDoc "Conversation abcdefgh not found"
    ∧ pyStartsWith "abcdefgh-1234" "abcdefgh" = true
    ∧ getMessages exampleStep1Ctx "abcdefgh-1234" 0 50 =
      .messagesDoc "abcdefgh-1234" 0 50 1
        [{ index := 0, role := "human", content := "hello", truncated := false,
           timestamp := none }] false := by
  refine ⟨?_, ?_, ?_⟩ <;> decide

/-- C7 (amended): the exact-then-prefix lookup exists only for Stage B
issue ids — there `_find_issue` resolves any id whose unique prefix is
given, returning the issue with the full id.  Stage A conversation-id
lookup and Stage C action-id lookup are exact-only: an id matching no
record exactly yields a not-found error even when it is a proper prefix
of a stored id (Stage C action ids are themselves generated 8-character
short forms). -/
theorem C7_prefix_lookup_scope :
    (∀ (issues : List EnrichedIssueRec) (p : String) (issue : EnrichedIssueRec),
      issue ∈ issues → pyStartsWith issue.id p = true →
      (∀ j ∈ issues, pyStartsWith j.id p = true → j.id = issue.id) →
      ∃ found, findIssue issues p = some found ∧ found.id = issue.id)
    ∧ (∀ (ctx : Step1Context) (conversationId : String) (offset limit : Nat),
      (∀ c ∈ ctx.conversations, c.sessionId ≠ conversationId) →
      getMessages ctx conversationId offset limit =
        .errorDoc ("Conversation " ++ conversationId ++ " not found"))
    ∧ (∀ (st : Step3State) (actionId : String),
      st.finalized = false →
      (∀ a ∈ st.resolutionActions, a.id ≠ actionId) →
      removeAction st actionId =
        (st, .errorDoc ("Action " ++ actionId ++ " not found"))) := by
  refine ⟨?_, ?_, ?_⟩
  · intro issues p issue hmem hpre huniq
    unfold findIssue
    cases hfind : issues.find? (fun i => i.id == p) with
    | some j =>
      have hj := List.find?_some hfind
      have hjid : j.id = p := by simpa using hj
      have hjm : j ∈ issues := List.mem_of_find?_eq_some hfind
      refine ⟨j, rfl, huniq j hjm ?_⟩
      rw [hjid]
      unfold pyStartsWith
      rw [List.take_length]
      exact beq_self_eq_true _
    | none =>
      have hex : ∃ x, x ∈ issues ∧ pyStartsWith x.id p = true := ⟨issue, hmem, hpre⟩
      cases hfind2 : issues.find? (fun i => pyStartsWith i.id p) with
      | none =>
        exfalso
        obtain ⟨x, hx, hpx⟩ := hex
        exact absurd hpx (by simpa using List.find?_eq_none.mp hfind2 x hx)
      | some j =>
        exact ⟨j, rfl,
          huniq j (List.mem_of_find?_eq_some hfind2)
            (by simpa using List.find?_some hfind2)⟩
  · intro ctx conversationId offset limit h
    have hnone : convIndexLookup ctx.conversations conversationId = none := by
      unfold convIndexLookup
      rw [List.find?_eq_none]
      intro c hc
      simpa using h c (List.mem_reverse.mp hc)
    unfold getMessages
    rw [hnone]
  · intro st actionId hfin h
    unfold removeAction
    rw [if_neg (by rw [hfin]; decide)]
    have hnone : st.resolutionActions.find? (fun a => a.id == actionId) = none := by
      rw [List.find?_eq_none]
      intro a ha
      simpa using h a ha
    rw [hnone]

/-- C7 witness: in a Stage B context holding the single issue
`11112222-aaaa-bbbb`, the 8-character short form `11112222` resolves to
that issue; in the Stage A context the short form of a conversation id
does not resolve, and in a Stage C context with no matching action id the
removal errors. -/
theorem C7_prefix_lookup_scope_witness :
    (∃ found, findIssue exampleIssues "11112222" = some found
      ∧ found.id = "11112222-aaaa-bbbb")
    ∧ getMessages exampleStep1Ctx "abcdefgh" 0 50 =
      .errorDoc ("Conversation " ++ "abcdefgh" ++ " not found")
    ∧ removeAction exampleOpenValidState "zzzz9999" =
      (exampleOpenValidState, .errorDoc ("Action " ++ "zzzz9999" ++ " not found")) :=
  ⟨C7_prefix_lookup_scope.1 exampleIssues "11112222"
      { id := "11112222-aaaa-bbbb" } (by decide) (by decide)
      (by decide),
   C7_prefix_lookup_scope.2.1 exampleStep1Ctx "abcdefgh" 0 50 (by decide),
   C7_prefix_lookup_scope.2.2 exampleOpenValidState "zzzz9999" (by decide)
      (by decide)⟩

/-! ### Theorems for claim C6 -/

/-- C6 counterexample: a handler exception caught at the provider tool
boundary is returned as the bare `str(e)` with `is_error=True` — not as a
JSON document with an `error` field.  Calling `get_full_message` with a
string-typed `message_index` makes the body's `message_index < 0` raise a
`TypeError`, and the boundary's reply is that plain message, refuting
"every failure is encoded as an `error` field inside the returned JSON
document". -/
theorem C6_counterexample :
    (executeTool exampleStep1Tools "get_full_message"
      [("conversation_id", .str "abcdefgh-1234"), ("message_index", .str "0")]).isError
      = true
    ∧ (executeTool exampleStep1Tools "get_full_message"
      [("conversation_id", .str "abcdefgh-1234"), ("message_index", .str "0")]).content
      = "'<' not supported between instances of 'str' and 'int'"
    ∧ isErrorDoc (executeTool exampleStep1Tools "get_full_message"
      [("conversation_id", .str "abcdefgh-1234"), ("message_index", .str "0")]).content
      = false := by
  refine ⟨rfl, rfl, by decide⟩

/-- C6 (amended): the in-domain failures the claim lists — unknown
conversation ids, out-of-range message indexes, invalid status strings —
are returned inside JSON documents carrying an `error` field, and the
provider boundary never lets an exception escape: a handler error becomes
a `ToolResult` with `is_error=True` whose content is the bare exception
text (not a JSON error document), and a handler success is passed
through. -/
theorem C6_errors_in_json :
    (∀ msg, isErrorDoc (errJson msg) = true)
    ∧ (∀ (ctx : Step1Context) (conversationId : String) (idx : PyVal),
      (∀ c ∈ ctx.conversations, c.sessionId ≠ conversationId) →
      getFullMessage ctx conversationId idx =
        .ok (errJson ("Conversation " ++ conversationId ++ " not found")))
    ∧ (∀ (ctx : Step1Context) (conversationId : String)
        (conv : ToolConversation) (i : Int),
      convIndexLookup ctx.conversations conversationId = some conv →
      (i < 0 ∨ i ≥ conv.messages.length) →
      getFullMessage ctx conversationId (.int i) =
        .ok (errJson ("Message index " ++ toString i ++ " out of range")))
    ∧ (∀ (st : Step2State) (issueId status : String) (issue : EnrichedIssueRec),
      findIssue st.issues issueId = some issue →
      status ∉ ["new", "recurring", "already_resolved"] →
      markIssueStatus st issueId status =
        (st, .errorDoc ("Invalid status: " ++ status)))
    ∧ (∀ (tools : List ToolDefinition) (t : ToolDefinition)
        (callName : String) (input : List (String × PyVal)) (e : String),
      tools.find? (fun td => td.name == callName) = some t →
      t.handler input = .error e →
      executeTool tools callName input = { content := e, isError := true })
    ∧ (∀ (tools : List ToolDefinition) (t : ToolDefinition)
        (callName : String) (input : List (String × PyVal)) (r : String),
      tools.find? (fun td => td.name == callName) = some t →
      t.handler input = .ok r →
      executeTool tools callName input = { content := r, isError := false }) := by
  refine ⟨?_, ?_, ?_, ?_, ?_, ?_⟩
  · intro msg
    unfold isErrorDoc errJson
    rw [String.data_append, String.data_append]
    have h1 : 9 ≤ ("\x7b\"error\": \"".data ++ msg.data).length := by
      rw [List.length_append]
      have h0 : ("\x7b\"error\": \"".data).length = 11 := by decide
      omega
    rw [List.take_append_of_le_length h1,
      List.take_append_of_le_length
        (by decide : 9 ≤ ("\x7b\"error\": \"".data).length)]
    decide
  · intro ctx conversationId idx h
    have hnone : convIndexLookup ctx.conversations conversationId = none := by
      unfold convIndexLookup
      rw [List.find?_eq_none]
      intro c hc
      simpa using h c (List.mem_reverse.mp hc)
    unfold getFullMessage
    rw [hnone]
  · intro ctx conversationId conv i hconv hrange
    unfold getFullMessage
    rw [hconv]
    show (if i < 0 ∨ i ≥ (conv.messages.length : Int) then _ else _) = _
    rw [if_pos hrange]
  · intro st issueId status issue hfind hstat
    unfold markIssueStatus
    rw [hfind]
    show (if status ∉ ["new", "recurring", "already_resolved"] then _ else _) = _
    rw [if_pos hstat]
  · intro tools t callName input e hfind he
    unfold executeTool
    rw [hfind]
    show (match t.handler input with
      | .ok r => ({ content := r, isError := false } : ToolResult)
      | .error e => { content := e, isError := true }) =
      { content := e, isError := true }
    rw [he]
  · intro tools t callName input r hfind hr
    unfold executeTool
    rw [hfind]
    show (match t.handler input with
      | .ok r => ({ content := r, isError := false } : ToolResult)
      | .error e => { content := e, isError := true }) =
      { content := r, isError := false }
    rw [hr]

/-- C6 witness: the amended statement evaluated on the example context —
unknown conversation id, out-of-range index 5, invalid status string, and
the boundary's handling of the example handler's error and success. -/
theorem C6_errors_in_json_witness :
    isErrorDoc (errJson "x") = true
    ∧ getFullMessage exampleStep1Ctx "nope" (.int 0) =
      .ok (errJson ("Conversation " ++ "nope" ++ " not found"))
    ∧ getFullMessage exampleStep1Ctx "abcdefgh-1234" (.int 5) =
      .ok (errJson ("Message index " ++ toString (5 : Int) ++ " out of range"))
    ∧ markIssueStatus (initStep2State exampleIssues) "11112222" "weird" =
      (initStep2State exampleIssues, .errorDoc ("Invalid status: " ++ "weird"))
    ∧ executeTool exampleStep1Tools "get_full_message"
        [("conversation_id", .str "abcdefgh-1234"), ("message_index", .str "0")] =
      { content := "'<' not supported between instances of 'str' and 'int'",
        isError := true } :=
  ⟨C6_errors_in_json.1 "x",
   C6_errors_in_json.2.1 exampleStep1Ctx "nope" (.int 0) (by decide),
   C6_errors_in_json.2.2.1 exampleStep1Ctx "abcdefgh-1234"
     { sessionId := "abcdefgh-1234"
       messages := [{ role := "human", content := "hello" }]
       workingDirectory := "/home/user/proj" } 5 (by decide) (by norm_num),
   C6_errors_in_json.2.2.2.1 (initStep2State exampleIssues) "11112222" "weird"
     { id := "11112222-aaaa-bbbb" } (by decide) (by decide),
   C6_errors_in_json.2.2.2.2.1 exampleStep1Tools
     { name := "get_full_message", handler := getFullMessageHandler exampleStep1Ctx }
     "get_full_message"
     [("conversation_id", .str "abcdefgh-1234"), ("message_index", .str "0")]
     "'<' not supported between instances of 'str' and 'int'" rfl rfl⟩

/-! ### Theorems for claim C2 -/

/-- Evaluation helper for `seqRatio` on concrete inputs. -/
theorem seqRatio_eval {a b : List Char} {m n k : Nat}
    (hm : matchingTotal a b = m) (ha : a.length = n) (hb : b.length = k) :
    seqRatio a b = if n + k = 0 then 1 else (2 * m : ℚ) / ((n + k : Nat) : ℚ) := by
  unfold seqRatio
  rw [hm, ha, hb]

/-- Closed form of the tool scorer when the content dict has `title` and
`description` and the rationale is non-empty: a weighted sum of the three
similarities with no issue-kind bonus, clamped at 1. -/
theorem calculateSimilarity_formula (issue : ScoredIssue) (action : PastAction)
    (t d : String) (ht : action.content.lookup "title" = some t)
    (hd : action.content.lookup "description" = some d)
    (hr : action.rationale ≠ "") :
    calculateSimilarity issue action =
      min (0.4 * seqRatio (pyLower issue.title).data (pyLower t).data
        + 0.3 * seqRatio (pyTake 500 (pyLower issue.description)).data
            (pyTake 500 (pyLower d)).data
        + 0.3 * seqRatio (pyTake 300 (pyLower issue.description)).data
            (pyTake 300 (pyLower action.rationale)).data) 1 := by
  have hcne : action.content ≠ [] := by
    intro h
    rw [h] at ht
    exact absurd ht (by simp)
  simp only [calculateSimilarity, if_pos hcne, ht, hd, if_pos hr]
  simp only [List.sum_append, List.sum_cons, List.sum_nil]
  congr 1
  ring

/-- Closed form of the fallback scorer under the same hypotheses: the
same weighted sum, untruncated, plus the 0.2 issue-kind bonus. -/
theorem calculateRelevance_formula (issue : ScoredIssue) (action : PastAction)
    (issueRef t d : String) (ht : action.content.lookup "title" = some t)
    (hd : action.content.lookup "description" = some d) :
    calculateRelevance issue action issueRef =
      min (0.4 * seqRatio (pyLower issue.title).data (pyLower t).data
        + 0.3 * seqRatio (pyLower issue.description).data (pyLower d).data
        + 0.3 * seqRatio (pyLower issue.description).data
            (pyLower action.rationale).data
        + (if pyContains (pyLower issueRef) issue.type.value then 0.2 else 0)) 1 := by
  simp only [calculateRelevance, ht, hd]
  by_cases hb : pyContains (pyLower issueRef) issue.type.value = true
  · simp only [if_pos hb]
    simp only [List.sum_append, List.sum_cons, List.sum_nil]
    congr 1
    ring
  · simp only [if_neg hb]
    simp only [List.sum_append, List.sum_cons, List.sum_nil]
    congr 1
    ring

/-- C2 counterexample: for the issue (kind `other`, title `"ab"`,
description `"xx"`) and past action (content title `"ab"`, description
`"yy"`, rationale `"zz"`, issue ref `"issue-other-1"` which contains the
kind string), the spec's weighted sum with the 0.2 kind bonus is 0.6 —
the fallback scorer returns exactly that — but the
`compare_issue_to_resolutions` tool scorer returns 0.4: it has no kind
bonus term, refuting the claim that the formula holds for both scorers. -/
theorem C2_counterexample :
    calculateSimilarity exampleScoredIssue examplePastAction = 0.4
    ∧ specLexicalScore exampleScoredIssue examplePastAction "issue-other-1" = 0.6
    ∧ calculateRelevance exampleScoredIssue examplePastAction "issue-other-1" = 0.6
    ∧ calculateSimilarity exampleScoredIssue examplePastAction ≠
      specLexicalScore exampleScoredIssue examplePastAction "issue-other-1" := by
  have hR1 : seqRatio (pyLower "ab").data (pyLower "ab").data = 1 := by
    rw [seqRatio_eval (m := 2) (n := 2) (k := 2) (by decide) (by decide) (by decide)]
    norm_num
  have hR2 : seqRatio (pyTake 500 (pyLower "xx")).data
      (pyTake 500 (pyLower "yy")).data = 0 := by
    rw [seqRatio_eval (m := 0) (n := 2) (k := 2) (by decide) (by decide) (by decide)]
    norm_num
  have hR3 : seqRatio (pyTake 300 (pyLower "xx")).data
      (pyTake 300 (pyLower "zz")).data = 0 := by
    rw [seqRatio_eval (m := 0) (n := 2) (k := 2) (by decide) (by decide) (by decide)]
    norm_num
  have hR4 : seqRatio (pyLower "xx").data (pyLower "yy").data = 0 := by
    rw [seqRatio_eval (m := 0) (n := 2) (k := 2) (by decide) (by decide) (by decide)]
    norm_num
  have hR5 : seqRatio (pyLower "xx").data (pyLower "zz").data = 0 := by
    rw [seqRatio_eval (m := 0) (n := 2) (k := 2) (by decide) (by decide) (by decide)]
    norm_num
  have hsim : calculateSimilarity exampleScoredIssue examplePastAction = 0.4 := by
    rw [calculateSimilarity_formula exampleScoredIssue examplePastAction "ab" "yy"
      (by decide) (by decide) (by decide)]
    show min (0.4 * seqRatio (pyLower "ab").data (pyLower "ab").data
      + 0.3 * seqRatio (pyTake 500 (pyLower "xx")).data (pyTake 500 (pyLower "yy")).data
      + 0.3 * seqRatio (pyTake 300 (pyLower "xx")).data
          (pyTake 300 (pyLower "zz")).data) 1 = 0.4
    rw [hR1, hR2, hR3]
    norm_num
  have hspec : specLexicalScore exampleScoredIssue examplePastAction
      "issue-other-1" = 0.6 := by
    unfold specLexicalScore
    show min (0.4 * seqRatio (pyLower "ab").data (pyLower "ab").data
      + 0.3 * seqRatio (pyLower "xx").data (pyLower "yy").data
      + 0.3 * seqRatio (pyLower "xx").data (pyLower "zz").data
      + (if pyContains (pyLower "issue-other-1") IssueType.other.value
          then 0.2 else 0)) 1 = 0.6
    rw [hR1, hR4, hR5, if_pos (by decide)]
    norm_num
  have hrel : calculateRelevance exampleScoredIssue examplePastAction
      "issue-other-1" = 0.6 := by
    rw [calculateRelevance_formula exampleScoredIssue examplePastAction
      "issue-other-1" "ab" "yy" (by decide) (by decide)]
    show min (0.4 * seqRatio (pyLower "ab").data (pyLower "ab").data
      + 0.3 * seqRatio (pyLower "xx").data (pyLower "yy").data
      + 0.3 * seqRatio (pyLower "xx").data (pyLower "zz").data
      + (if pyContains (pyLower "issue-other-1") IssueType.other.value
          then 0.2 else 0)) 1 = 0.6
    rw [hR1, hR4, hR5, if_pos (by decide)]
    norm_num
  refine ⟨hsim, hspec, hrel, ?_⟩
  rw [hsim, hspec]
  norm_num

/-- C2 (amended): the spec's weighted-sum formula (0.4·title +
0.3·description + 0.3·rationale + 0.2 kind bonus, clamped to [0,1]) holds
for the non-agentic fallback scorer `_calculate_relevance`; the
`compare_issue_to_resolutions` tool scorer computes only
0.4·title + 0.3·description + 0.3·rationale (with its 500/300-character
truncations) clamped to [0,1], with no kind bonus. -/
theorem C2_scorer_formulas (issue : ScoredIssue) (action : PastAction)
    (issueRef t d : String) (ht : action.content.lookup "title" = some t)
    (hd : action.content.lookup "description" = some d)
    (hr : action.rationale ≠ "") :
    calculateRelevance issue action issueRef =
      specLexicalScore issue action issueRef
    ∧ calculateSimilarity issue action =
      min (0.4 * seqRatio (pyLower issue.title).data (pyLower t).data
        + 0.3 * seqRatio (pyTake 500 (pyLower issue.description)).data
            (pyTake 500 (pyLower d)).data
        + 0.3 * seqRatio (pyTake 300 (pyLower issue.description)).data
            (pyTake 300 (pyLower action.rationale)).data) 1 := by
  refine ⟨?_, calculateSimilarity_formula issue action t d ht hd hr⟩
  rw [calculateRelevance_formula issue action issueRef t d ht hd]
  unfold specLexicalScore
  rw [ht, hd]
  rfl

/-- C2 witness: the amended formulas evaluated on the example issue and
action. -/
theorem C2_scorer_formulas_witness :
    calculateRelevance exampleScoredIssue examplePastAction "issue-other-1" =
      specLexicalScore exampleScoredIssue examplePastAction "issue-other-1"
    ∧ calculateSimilarity exampleScoredIssue examplePastAction =
      min (0.4 * seqRatio (pyLower "ab").data (pyLower "ab").data
        + 0.3 * seqRatio (pyTake 500 (pyLower "xx")).data
            (pyTake 500 (pyLower "yy")).data
        + 0.3 * seqRatio (pyTake 300 (pyLower "xx")).data
            (pyTake 300 (pyLower "zz")).data) 1 :=
  C2_scorer_formulas exampleScoredIssue examplePastAction "issue-other-1"
    "ab" "yy" (by decide) (by decide) (by decide)

/-! ### Theorems for claim C8 -/

theorem dropWhile_length_eq {p : Char → Bool} :
    ∀ {l : List Char}, (l.dropWhile p).length = l.length → l.dropWhile p = l := by
  intro l
  induction l with
  | nil => intro _; rfl
  | cons c t ih =>
    intro h
    by_cases hc : p c = true
    · rw [List.dropWhile_cons_of_pos hc] at h ⊢
      have := (List.dropWhile_suffix (l := t) p).length_le
      simp only [List.length_cons] at h
      omega
    · rw [List.dropWhile_cons_of_neg hc]

theorem dropWhile_cons_head {p : Char → Bool} {l : List Char}
    (h : l.dropWhile p = l) (hl : l ≠ []) :
    ∃ c t, l = c :: t ∧ p c = false := by
  cases l with
  | nil => exact absurd rfl hl
  | cons c t =>
    refine ⟨c, t, rfl, ?_⟩
    by_cases hc : p c = true
    · rw [List.dropWhile_cons_of_pos hc] at h
      have := (List.dropWhile_suffix (l := t) p).length_le
      have h2 := congrArg List.length h
      simp only [List.length_cons] at h2
      omega
    · simpa using hc

/-- A strip-fixed non-empty character list starts and ends with
non-whitespace. -/
theorem stripChars_fixed_ends {l : List Char}
    (h : pyStripChars l = l) (hl : l ≠ []) :
    (∃ c t, l = c :: t ∧ isPyWs c = false)
    ∧ (∃ d, l.getLast? = some d ∧ isPyWs d = false) := by
  have hlen1 : (l.dropWhile isPyWs).length = l.length := by
    have e1 := congrArg List.length h
    unfold pyStripChars at e1
    rw [List.length_reverse] at e1
    have e2 := (List.dropWhile_suffix (l := (l.dropWhile isPyWs).reverse) isPyWs).length_le
    rw [List.length_reverse] at e2
    have e3 := (List.dropWhile_suffix (l := l) isPyWs).length_le
    omega
  have hfix1 : l.dropWhile isPyWs = l := dropWhile_length_eq hlen1
  have hfix2 : l.reverse.dropWhile isPyWs = l.reverse := by
    unfold pyStripChars at h
    rw [hfix1] at h
    have := congrArg List.reverse h
    rwa [List.reverse_reverse] at this
  refine ⟨dropWhile_cons_head hfix1 hl, ?_⟩
  obtain ⟨d, t, hdt, hd⟩ := dropWhile_cons_head hfix2 (by simpa using hl)
  refine ⟨d, ?_, hd⟩
  rw [List.getLast?_eq_head?_reverse, hdt]
  rfl

/-- Stripping is unaffected by one trailing newline. -/
theorem pyStripChars_append_nl (xs : List Char) :
    pyStripChars (xs ++ ['\n']) = pyStripChars xs := by
  unfold pyStripChars
  rw [List.dropWhile_append]
  by_cases he : (xs.dropWhile isPyWs).isEmpty = true
  · rw [if_pos he]
    have : xs.dropWhile isPyWs = [] := by simpa using he
    rw [this]
    rfl
  · rw [if_neg he]
    rw [List.reverse_append]
    rfl

/-- A list starting and ending with non-whitespace is strip-fixed. -/
theorem pyStripChars_fixed {l : List Char} {c d : Char}
    (hh : l.head? = some c) (hc : isPyWs c = false)
    (hl : l.getLast? = some d) (hd : isPyWs d = false) :
    pyStripChars l = l := by
  unfold pyStripChars
  have h1 : l.dropWhile isPyWs = l := by
    cases l with
    | nil => rfl
    | cons x t =>
      simp only [List.head?_cons, Option.some.injEq] at hh
      rw [List.dropWhile_cons_of_neg (by rw [hh, hc]; exact Bool.false_ne_true)]
  rw [h1]
  have h2 : l.reverse.dropWhile isPyWs = l.reverse := by
    have hh2 : l.reverse.head? = some d := by rw [List.head?_reverse, hl]
    cases hrev : l.reverse with
    | nil => rfl
    | cons x t =>
      rw [hrev] at hh2
      simp only [List.head?_cons, Option.some.injEq] at hh2
      rw [List.dropWhile_cons_of_neg (by rw [hh2, hd]; exact Bool.false_ne_true)]
  rw [h2, List.reverse_reverse]

theorem splitNlChars_no_nl {p : List Char} (h : '\n' ∉ p) :
    splitNlChars p = [p] := by
  induction p with
  | nil => rfl
  | cons c t ih =>
    conv_lhs => rw [splitNlChars]
    rw [if_neg (fun he => h (by rw [← he]; exact List.mem_cons_self c t))]
    rw [ih (fun ht => h (List.mem_cons_of_mem c ht))]

theorem splitNlChars_append_nl {p : List Char} (h : '\n' ∉ p)
    (rest : List Char) :
    splitNlChars (p ++ '\n' :: rest) = p :: splitNlChars rest := by
  induction p with
  | nil =>
    show splitNlChars ('\n' :: rest) = [] :: splitNlChars rest
    conv_lhs => rw [splitNlChars]
    rw [if_pos rfl]
  | cons c t ih =>
    rw [List.cons_append]
    conv_lhs => rw [splitNlChars]
    rw [if_neg (fun he => h (by rw [← he]; exact List.mem_cons_self c t))]
    rw [ih (fun ht => h (List.mem_cons_of_mem c ht))]

theorem splitNlChars_joinNlChars :
    ∀ (ps : List (List Char)), ps ≠ [] → (∀ p ∈ ps, '\n' ∉ p) →
      splitNlChars (joinNlChars ps) = ps := by
  intro ps
  induction ps with
  | nil => intro h; exact absurd rfl h
  | cons p rest ih =>
    intro _ hnl
    cases rest with
    | nil =>
      show splitNlChars p = [p]
      exact splitNlChars_no_nl (hnl p (List.mem_cons_self p []))
    | cons q rest2 =>
      show splitNlChars (p ++ '\n' :: joinNlChars (q :: rest2)) = p :: (q :: rest2)
      rw [splitNlChars_append_nl (hnl p (List.mem_cons_self p _)) _]
      rw [ih (by simp) fun x hx => hnl x (List.mem_cons_of_mem p hx)]

theorem joinNlChars_append_nil :
    ∀ (ps : List (List Char)), ps ≠ [] →
      joinNlChars (ps ++ [[]]) = joinNlChars ps ++ ['\n'] := by
  intro ps
  induction ps with
  | nil => intro h; exact absurd rfl h
  | cons p rest ih =>
    intro _
    cases rest with
    | nil => rfl
    | cons q rest2 =>
      show p ++ '\n' :: joinNlChars ((q :: rest2) ++ [[]]) =
        (p ++ '\n' :: joinNlChars (q :: rest2)) ++ ['\n']
      rw [ih (by simp), List.append_assoc, List.cons_append]

theorem joinNlChars_head {l : List Char} (ls : List (List Char)) (hl : l ≠ []) :
    (joinNlChars (l :: ls)).head? = l.head? := by
  cases ls with
  | nil => rfl
  | cons q rest =>
    show (l ++ '\n' :: joinNlChars (q :: rest)).head? = l.head?
    cases l with
    | nil => exact absurd rfl hl
    | cons c t => rfl

theorem joinNlChars_ne_nil_of_cons (p : List Char) (q : List Char)
    (rest : List (List Char)) : joinNlChars (p :: q :: rest) ≠ [] := by
  show p ++ '\n' :: joinNlChars (q :: rest) ≠ []
  exact fun h => by simpa using congrArg List.length h

theorem joinNlChars_getLast :
    ∀ (ps : List (List Char)) (lp : List Char), ps.getLast? = some lp → lp ≠ [] →
      (joinNlChars ps).getLast? = lp.getLast? := by
  intro ps
  induction ps with
  | nil => intro lp h; exact absurd h (by simp)
  | cons p rest ih =>
    intro lp h hlp
    cases rest with
    | nil =>
      simp only [List.getLast?_singleton, Option.some.injEq] at h
      rw [← h]
      rfl
    | cons q rest2 =>
      rw [List.getLast?_cons_cons] at h
      show (p ++ '\n' :: joinNlChars (q :: rest2)).getLast? = lp.getLast?
      rw [List.getLast?_append_of_ne_nil p (by simp)]
      have hne : joinNlChars (q :: rest2) ≠ [] := by
        intro hnil
        have := ih lp h hlp
        rw [hnil] at this
        simp only [List.getLast?_nil] at this
        cases lp with
        | nil => exact hlp rfl
        | cons x t =>
          rw [List.getLast?_eq_head?_reverse] at this
          cases hrev : (x :: t).reverse with
          | nil => simpa using congrArg List.length hrev
          | cons y s => rw [hrev] at this; simp at this
      cases hj : joinNlChars (q :: rest2) with
      | nil => exact absurd hj hne
      | cons y s =>
        rw [List.getLast?_cons_cons, ← hj, ih lp h hlp]

theorem lookup_upsertAssoc_self {α : Type} (l : List (String × α))
    (k : String) (v : α) : (upsertAssoc l k v).lookup k = some v := by
  induction l with
  | nil => simp [upsertAssoc, List.lookup]
  | cons e rest ih =>
    rw [show e = (e.1, e.2) from rfl]
    unfold upsertAssoc
    by_cases h : e.1 = k
    · rw [if_pos h, List.lookup, h, beq_self_eq_true]
    · rw [if_neg h, List.lookup, beq_false_of_ne (fun he => h he.symm)]
      exact ih

theorem lookup_upsertAssoc_ne {α : Type} (l : List (String × α))
    (k s : String) (v : α) (h : s ≠ k) :
    (upsertAssoc l k v).lookup s = l.lookup s := by
  induction l with
  | nil => simp [upsertAssoc, List.lookup, beq_false_of_ne h]
  | cons e rest ih =>
    rw [show e = (e.1, e.2) from rfl]
    unfold upsertAssoc
    by_cases he : e.1 = k
    · rw [if_pos he, List.lookup, List.lookup, beq_false_of_ne (he ▸ h)]
    · rw [if_neg he, List.lookup, List.lookup]
      cases hbe : s == e.1 with
      | true => rfl
      | false => exact ih

theorem upsertAssoc_of_lookup_self {α : Type} {l : List (String × α)}
    {k : String} {v : α} (h : l.lookup k = some v) : upsertAssoc l k v = l := by
  induction l with
  | nil => simp [List.lookup] at h
  | cons e rest ih =>
    rw [show e = (e.1, e.2) from rfl]
    unfold upsertAssoc
    rw [show e = (e.1, e.2) from rfl, List.lookup] at h
    by_cases he : e.1 = k
    · rw [if_pos he]
      rw [show (k == e.1) = true from beq_iff_eq.mpr he.symm] at h
      simp only [Option.some.injEq] at h
      rw [h]
    · rw [if_neg he]
      rw [show (k == e.1) = false from beq_false_of_ne (fun hk => he hk.symm)] at h
      rw [ih h]

theorem lookup_append_of_none {α : Type} {l : List (String × α)} {k : String}
    (h : l.lookup k = none) (l2 : List (String × α)) :
    (l ++ l2).lookup k = l2.lookup k := by
  induction l with
  | nil => rfl
  | cons e rest ih =>
    rw [show e = (e.1, e.2) from rfl] at h ⊢
    rw [List.cons_append, List.lookup]
    rw [List.lookup] at h
    cases hbe : k == e.1 with
    | true => rw [hbe] at h; exact absurd h (by simp)
    | false =>
      rw [hbe] at h
      exact ih h

theorem addSectionItems_self_absorbs (acc : Sections) (s : String)
    (items : List String) :
    ∃ v, (addSectionItems acc s items).lookup s = some v
      ∧ ∀ it ∈ items, it ∈ v := by
  unfold addSectionItems
  cases hl : acc.lookup s with
  | some old =>
    refine ⟨old ++ items.filter fun it => ¬ old.contains it,
      lookup_upsertAssoc_self _ _ _, fun it hit => ?_⟩
    by_cases hc : old.contains it
    · exact List.mem_append_left _ (by simpa using hc)
    · refine List.mem_append_right _ (List.mem_filter.mpr ⟨hit, ?_⟩)
      simpa using hc
  | none =>
    exact ⟨items, by rw [lookup_append_of_none hl, List.lookup, beq_self_eq_true],
      fun it hit => hit⟩

theorem addSectionItems_mono (acc : Sections) (k : String) (items : List String)
    {s : String} {v : List String} (h : acc.lookup s = some v) :
    ∃ w, (addSectionItems acc k items).lookup s = some w ∧ ∀ x ∈ v, x ∈ w := by
  unfold addSectionItems
  cases hl : acc.lookup k with
  | some old =>
    by_cases hs : s = k
    · subst hs
      rw [h] at hl
      cases hl
      exact ⟨_, lookup_upsertAssoc_self _ _ _, fun x hx => List.mem_append_left _ hx⟩
    · exact ⟨v, by rw [lookup_upsertAssoc_ne _ _ _ _ hs]; exact h, fun x hx => hx⟩
  | none =>
    refine ⟨v, ?_, fun x hx => hx⟩
    have hne : s ≠ k := fun he => by rw [he, hl] at h; exact absurd h (by simp)
    induction acc with
    | nil => simp [List.lookup] at h
    | cons e rest ih =>
      rw [show e = (e.1, e.2) from rfl] at h ⊢
      rw [List.cons_append, List.lookup]
      rw [List.lookup] at h
      cases hbe : s == e.1 with
      | true => rw [hbe] at h; exact h
      | false =>
        rw [hbe] at h
        rw [List.lookup] at hl
        cases hbk : k == e.1 with
        | true => rw [hbk] at hl; exact absurd hl (by simp)
        | false =>
          rw [hbk] at hl
          exact ih h hl

theorem mergeAssoc_mono (ns : Sections) :
    ∀ (acc : Sections) (s : String) (v : List String), acc.lookup s = some v →
      ∃ w, (mergeAssoc acc ns).lookup s = some w ∧ ∀ x ∈ v, x ∈ w := by
  induction ns with
  | nil => exact fun acc s v h => ⟨v, h, fun x hx => hx⟩
  | cons e rest ih =>
    intro acc s v h
    obtain ⟨w1, hw1, hsub1⟩ := addSectionItems_mono acc e.1 e.2 h
    obtain ⟨w2, hw2, hsub2⟩ := ih (addSectionItems acc e.1 e.2) s w1 hw1
    exact ⟨w2, hw2, fun x hx => hsub2 x (hsub1 x hx)⟩

theorem mergeAssoc_absorbs (ns : Sections) :
    ∀ (acc : Sections), ∀ e ∈ ns,
      ∃ v, (mergeAssoc acc ns).lookup e.1 = some v ∧ ∀ it ∈ e.2, it ∈ v := by
  induction ns with
  | nil => intro acc e he; exact absurd he (List.not_mem_nil e)
  | cons e0 rest ih =>
    intro acc e he
    rcases List.mem_cons.mp he with he0 | hrest
    · subst he0
      obtain ⟨v, hv, hsub⟩ := addSectionItems_self_absorbs acc e.1 e.2
      obtain ⟨w, hw, hsub2⟩ := mergeAssoc_mono rest _ _ _ hv
      exact ⟨w, hw, fun it hit => hsub2 it (hsub it hit)⟩
    · exact ih (addSectionItems acc e0.1 e0.2) e hrest

theorem addSectionItems_absorbed {acc : Sections} {s : String}
    {items : List String}
    (h : ∃ v, acc.lookup s = some v ∧ ∀ it ∈ items, it ∈ v) :
    addSectionItems acc s items = acc := by
  obtain ⟨v, hv, hsub⟩ := h
  unfold addSectionItems
  rw [hv]
  show upsertAssoc acc s (v ++ items.filter fun it => ¬ v.contains it) = acc
  have hfil : (items.filter fun it => ¬ v.contains it) = [] := by
    rw [List.filter_eq_nil_iff]
    intro it hit
    simpa using hsub it hit
  rw [hfil, List.append_nil, upsertAssoc_of_lookup_self hv]

theorem mergeAssoc_absorbed (ns : Sections) :
    ∀ (acc : Sections),
      (∀ e ∈ ns, ∃ v, acc.lookup e.1 = some v ∧ ∀ it ∈ e.2, it ∈ v) →
      mergeAssoc acc ns = acc := by
  induction ns with
  | nil => exact fun acc _ => rfl
  | cons e rest ih =>
    intro acc h
    have he := h e (List.mem_cons_self e rest)
    have hadd : addSectionItems acc e.1 e.2 = acc := addSectionItems_absorbed he
    show mergeAssoc (addSectionItems acc e.1 e.2) rest = acc
    rw [hadd]
    exact ih acc fun e2 he2 => h e2 (List.mem_cons_of_mem e he2)

/-- The merge loop is idempotent on its own output: merging the same
`new_sections` a second time changes nothing. -/
theorem mergeAssoc_idem (m ns : Sections) :
    mergeAssoc (mergeAssoc m ns) ns = mergeAssoc m ns :=
  mergeAssoc_absorbed ns (mergeAssoc m ns) (mergeAssoc_absorbs ns m)

/-- C8 counterexample: for the existing file `"## Style\n- Use tabs\n"`
(no text before its first section header) and the content
`{"style": ["Use tabs"]}`, the first merge leaves the parse with a
`General` bucket holding only the rebuilt title line, so the second merge
renders an additional `## General` section: applying the update twice
yields different file text than applying it once. -/
theorem C8_counterexample :
    updateClaudeMd (updateClaudeMd exampleMdText examplePrefContent)
        examplePrefContent
      ≠ updateClaudeMd exampleMdText examplePrefContent
    ∧ updateClaudeMd exampleMdText examplePrefContent =
      "# Project Preferences\n\n## Style\n- Use tabs\n"
    ∧ updateClaudeMd (updateClaudeMd exampleMdText examplePrefContent)
        examplePrefContent =
      "# Project Preferences\n\n## General\n# Project Preferences\n\n## Style\n- Use tabs\n" := by
  refine ⟨?_, ?_, ?_⟩ <;> decide

theorem splitLines_joinLines (ls : List String) (h1 : ls ≠ [])
    (h2 : ∀ l ∈ ls, '\n' ∉ l.data) :
    splitLines (joinLines ls) = ls := by
  unfold splitLines joinLines
  rw [show (String.mk (joinNlChars (ls.map String.data))).data
      = joinNlChars (ls.map String.data) from rfl]
  rw [splitNlChars_joinNlChars (ls.map String.data)
    (by simpa using h1)
    (by
      intro p hp
      obtain ⟨l, hl, hlp⟩ := List.mem_map.mp hp
      rw [← hlp]
      exact h2 l hl)]
  rw [List.map_map]
  exact List.map_id'' (fun s => rfl) ls

theorem joinLines_append_empty (ls : List String) (h : ls ≠ []) :
    joinLines (ls ++ [""]) = joinLines ls ++ "\n" := by
  unfold joinLines
  rw [List.map_append]
  show String.mk (joinNlChars (ls.map String.data ++ [[]])) = _
  rw [joinNlChars_append_nil (ls.map String.data) (by simpa using h)]
  rfl

theorem pyStrip_append_nl (s : String) :
    pyStrip (s ++ "\n") = pyStrip s := by
  unfold pyStrip
  rw [String.data_append]
  show String.mk (pyStripChars (s.data ++ ['\n'])) = String.mk (pyStripChars s.data)
  rw [pyStripChars_append_nl]

theorem pyStrip_fixed {s : String} {c d : Char}
    (hh : s.data.head? = some c) (hc : isPyWs c = false)
    (hl : s.data.getLast? = some d) (hd : isPyWs d = false) :
    pyStrip s = s := by
  unfold pyStrip
  rw [pyStripChars_fixed hh hc hl hd]

theorem pyStrip_joinLines_fixed {ls : List String} {a z : String} {c d : Char}
    (hhead : ls.head? = some a) (hha : a.data.head? = some c)
    (hc : isPyWs c = false)
    (hlast : ls.getLast? = some z) (hz : z.data.getLast? = some d)
    (hd : isPyWs d = false) :
    pyStrip (joinLines ls) = joinLines ls := by
  refine pyStrip_fixed ?_ hc ?_ hd
  · obtain ⟨t, hlt⟩ : ∃ t, ls = a :: t := by
      cases ls with
      | nil => exact absurd hhead (by simp)
      | cons x t =>
        refine ⟨t, ?_⟩
        have hx : x = a := by simpa using hhead
        rw [hx]
    rw [hlt]
    show (joinNlChars (a.data :: t.map String.data)).head? = some c
    rw [joinNlChars_head (t.map String.data)
      (fun h0 => by rw [h0] at hha; exact absurd hha (by simp))]
    exact hha
  · show (joinNlChars (ls.map String.data)).getLast? = some d
    have h1 : (ls.map String.data).getLast? = some z.data := by
      rw [List.getLast?_map, hlast]
      rfl
    have h2 : z.data ≠ [] := fun h0 => by
      rw [h0] at hz
      exact absurd hz (by simp)
    rw [joinNlChars_getLast (ls.map String.data) z.data h1 h2]
    exact hz

/-- Every line the rebuild loop emits is newline-free when the section
map is well-formed. -/
theorem renderLines_nl_free {M : Sections}
    (h : ∀ e ∈ M, e.2 ≠ [] ∧ CleanKey e.1 ∧ ∀ l ∈ e.2, SafeLine l) :
    ∀ l ∈ renderLines M, '\n' ∉ l.data := by
  intro l hl
  unfold renderLines at hl
  rcases List.mem_append.mp hl with h2 | h2
  · rcases List.mem_cons.mp h2 with he | h3
    · rw [he]
      decide
    · rw [List.mem_singleton.mp h3]
      decide
  · obtain ⟨e, he, hle⟩ := List.mem_flatMap.mp h2
    have hee : e.2 ≠ [] ∧ CleanKey e.1 ∧ ∀ x ∈ e.2, SafeLine x := h e he
    have hkc : pyStrip e.1 = e.1 ∧ e.1 ≠ "" ∧ '\n' ∉ e.1.data := hee.2.1
    unfold blockOf at hle
    rw [if_pos (Or.inr hee.1)] at hle
    rcases List.mem_append.mp hle with h3 | h3
    · rcases List.mem_cons.mp h3 with he2 | hx
      · rw [he2, String.data_append]
        intro hmem
        rcases List.mem_append.mp hmem with hy | hy
        · revert hy
          decide
        · exact hkc.2.2 hy
      · have hsl : pyStrip l = l ∧ l ≠ "" ∧ pyStartsWith l "## " = false
            ∧ '\n' ∉ l.data := hee.2.2 l hx
        exact hsl.2.2.2
    · rw [List.mem_singleton.mp h3]
      decide

theorem render_strip_core (M' : Sections) (e : String × List String)
    (hne : e.2 ≠ []) (hkey : CleanKey e.1) (hsafe : ∀ l ∈ e.2, SafeLine l) :
    pyStrip (joinLines (["# Project Preferences", ""]
        ++ (M'.flatMap blockOf ++ ("## " ++ e.1) :: e.2)))
      = joinLines (["# Project Preferences", ""]
        ++ (M'.flatMap blockOf ++ ("## " ++ e.1) :: e.2)) := by
  have hzne : e.2.getLast? ≠ none :=
    fun h0 => hne (List.getLast?_eq_none_iff.mp h0)
  obtain ⟨z, hz⟩ := Option.ne_none_iff_exists'.mp hzne
  have hzmem : z ∈ e.2 := List.mem_of_getLast?_eq_some hz
  have hzs : pyStrip z = z ∧ z ≠ "" ∧ pyStartsWith z "## " = false
      ∧ '\n' ∉ z.data := hsafe z hzmem
  have hdz : pyStripChars z.data = z.data := congrArg String.data hzs.1
  have hzd : z.data ≠ [] := fun h0 => hzs.2.1 (congrArg String.mk h0)
  obtain ⟨-, d, hdlast, hdws⟩ := stripChars_fixed_ends hdz hzd
  have hheadF : (["# Project Preferences", ""]
      ++ (M'.flatMap blockOf ++ ("## " ++ e.1) :: e.2)).head?
      = some "# Project Preferences" := rfl
  have hha : ("# Project Preferences" : String).data.head? = some '#' := by decide
  have hc : isPyWs '#' = false := by decide
  have hlastF : (["# Project Preferences", ""]
      ++ (M'.flatMap blockOf ++ ("## " ++ e.1) :: e.2)).getLast? = some z := by
    rw [List.getLast?_append_of_ne_nil ["# Project Preferences", ""] (by simp)]
    rw [List.getLast?_append_of_ne_nil (M'.flatMap blockOf) (by simp)]
    cases he2 : e.2 with
    | nil => exact absurd he2 hne
    | cons v t2 =>
      rw [he2] at hz
      rw [List.getLast?_cons_cons]
      exact hz
  exact pyStrip_joinLines_fixed hheadF hha hc hlastF hdlast hdws

/-- With a well-formed section map, the final strip of the rebuilt text
is a no-op: the rendered string is exactly the joined line list. -/
theorem render_strip_id {M : Sections} (hM : GoodSections M) :
    renderSections M = joinLines (renderLines M) := by
  have hg : (M.map Prod.fst).head? = some "General"
      ∧ (M.map Prod.fst).Nodup
      ∧ ∀ e ∈ M, e.2 ≠ [] ∧ CleanKey e.1 ∧ ∀ l ∈ e.2, SafeLine l := hM
  have hMne : M ≠ [] := by
    intro h0
    rw [h0] at hg
    exact absurd hg.1 (by simp)
  obtain ⟨M', e, hMeq⟩ : ∃ L b, M = L ++ [b] := by
    rcases List.eq_nil_or_concat M with h0 | ⟨L, b, h0⟩
    · exact absurd h0 hMne
    · exact ⟨L, b, by rw [h0, List.concat_eq_append]⟩
  have he : e ∈ M := by
    rw [hMeq]
    exact List.mem_append_right M' (List.mem_singleton_self e)
  have hee := hg.2.2 e he
  have hne : e.2 ≠ [] := hee.1
  have hkey : CleanKey e.1 := hee.2.1
  have hsafe : ∀ l ∈ e.2, SafeLine l := hee.2.2
  have hblock : blockOf e = ("## " ++ e.1) :: (e.2 ++ [""]) := by
    unfold blockOf
    rw [if_pos (Or.inr hne)]
    exact List.cons_append _ _ _
  have hrl : renderLines M
      = (["# Project Preferences", ""]
          ++ (M'.flatMap blockOf ++ ("## " ++ e.1) :: e.2)) ++ [""] := by
    rw [hMeq]
    unfold renderLines
    rw [List.flatMap_append, List.flatMap_cons, List.flatMap_nil,
      List.append_nil, hblock]
    simp [List.append_assoc]
  have hFne : (["# Project Preferences", ""]
      ++ (M'.flatMap blockOf ++ ("## " ++ e.1) :: e.2)) ≠ [] := by simp
  calc renderSections M
      = pyStrip (joinLines (renderLines M)) ++ "\n" := rfl
    _ = pyStrip (joinLines ((["# Project Preferences", ""]
          ++ (M'.flatMap blockOf ++ ("## " ++ e.1) :: e.2)) ++ [""])) ++ "\n" := by
        rw [hrl]
    _ = pyStrip (joinLines (["# Project Preferences", ""]
          ++ (M'.flatMap blockOf ++ ("## " ++ e.1) :: e.2)) ++ "\n") ++ "\n" := by
        rw [joinLines_append_empty _ hFne]
    _ = pyStrip (joinLines (["# Project Preferences", ""]
          ++ (M'.flatMap blockOf ++ ("## " ++ e.1) :: e.2))) ++ "\n" := by
        rw [pyStrip_append_nl]
    _ = joinLines (["# Project Preferences", ""]
          ++ (M'.flatMap blockOf ++ ("## " ++ e.1) :: e.2)) ++ "\n" := by
        rw [render_strip_core M' e hne hkey hsafe]
    _ = joinLines ((["# Project Preferences", ""]
          ++ (M'.flatMap blockOf ++ ("## " ++ e.1) :: e.2)) ++ [""]) := by
        rw [joinLines_append_empty _ hFne]
    _ = joinLines (renderLines M) := by rw [hrl]

theorem parseLinesAux_items :
    ∀ (its : List String), (∀ l ∈ its, SafeLine l) →
    ∀ (L : List String) (cur : String) (acc : List String) (secs : Sections),
      parseLinesAux (its ++ L) cur acc secs
        = parseLinesAux L cur (acc ++ its) secs := by
  intro its
  induction its with
  | nil =>
    intro _ L cur acc secs
    rw [List.nil_append, List.append_nil]
  | cons l t ih =>
    intro hsafe L cur acc secs
    have hs : pyStrip l = l ∧ l ≠ "" ∧ pyStartsWith l "## " = false
        ∧ '\n' ∉ l.data := hsafe l (List.mem_cons_self l t)
    rw [List.cons_append]
    conv_lhs => rw [parseLinesAux]
    rw [if_neg (by rw [hs.2.2.1]; exact Bool.false_ne_true)]
    rw [if_pos (show pyStrip l ≠ "" by rw [hs.1]; exact hs.2.1)]
    rw [ih (fun x hx => hsafe x (List.mem_cons_of_mem l hx)) L cur (acc ++ [l]) secs]
    rw [List.append_assoc, List.singleton_append]

theorem parseLinesAux_blank (L : List String) (cur : String)
    (acc : List String) (secs : Sections) :
    parseLinesAux ("" :: L) cur acc secs = parseLinesAux L cur acc secs := by
  conv_lhs => rw [parseLinesAux]
  rw [if_neg (by decide), if_neg (by decide)]

theorem parseLinesAux_header (k : String) (hk : CleanKey k)
    (L : List String) (cur : String) (acc : List String) (secs : Sections) :
    parseLinesAux (("## " ++ k) :: L) cur acc secs
      = parseLinesAux L k [] (commitPending secs cur acc) := by
  have hkc : pyStrip k = k ∧ k ≠ "" ∧ '\n' ∉ k.data := hk
  have hcond : pyStartsWith ("## " ++ k) "## " = true := by
    unfold pyStartsWith
    rw [String.data_append]
    rw [show ("## " : String).data.length = 3 from rfl]
    rw [List.take_left' (show ("## " : String).data.length = 3 from rfl)]
    exact beq_self_eq_true _
  have hdrop : (("## " ++ k) : String).data.drop 3 = k.data := by
    rw [String.data_append]
    exact List.drop_left' (show ("## " : String).data.length = 3 from rfl)
  conv_lhs => rw [parseLinesAux]
  rw [if_pos hcond]
  rw [hdrop]
  rw [show pyStrip (String.mk k.data) = k from hkc.1]

theorem parseLinesAux_blocks :
    ∀ (M : Sections), (∀ e ∈ M, e.2 ≠ [] ∧ CleanKey e.1 ∧ ∀ l ∈ e.2, SafeLine l) →
    ∀ (cur : String) (acc : List String) (secs : Sections),
      parseLinesAux (M.flatMap blockOf) cur acc secs
        = parseBlocksSpec M (secs, cur, acc) := by
  intro M
  induction M with
  | nil =>
    intro _ cur acc secs
    rfl
  | cons e rest ih =>
    intro hM cur acc secs
    have hee := hM e (List.mem_cons_self e rest)
    have hblock : blockOf e = ("## " ++ e.1) :: (e.2 ++ [""]) := by
      unfold blockOf
      rw [if_pos (Or.inr hee.1)]
      exact List.cons_append _ _ _
    rw [List.flatMap_cons, hblock, List.cons_append]
    rw [parseLinesAux_header e.1 hee.2.1]
    rw [List.append_assoc]
    rw [parseLinesAux_items e.2 hee.2.2]
    rw [List.nil_append, List.singleton_append]
    rw [parseLinesAux_blank]
    rw [ih (fun x hx => hM x (List.mem_cons_of_mem e hx)) e.1 e.2
      (commitPending secs cur acc)]
    rfl

theorem parseBlocksSpec_eq :
    ∀ (M : Sections), (∀ e ∈ M, e.2 ≠ []) →
    ∀ (secs : Sections) (cur : String) (acc : List String),
      parseBlocksSpec M (secs, cur, acc)
        = M.foldl (fun a x => upsertAssoc a x.1 x.2) (commitPending secs cur acc) := by
  intro M
  induction M with
  | nil =>
    intro _ secs cur acc
    rfl
  | cons e rest ih =>
    intro hM secs cur acc
    have h1 : ∀ (s : Sections), commitPending s e.1 e.2 = upsertAssoc s e.1 e.2 := by
      intro s
      unfold commitPending
      rw [if_pos (hM e (List.mem_cons_self e rest))]
    calc parseBlocksSpec (e :: rest) (secs, cur, acc)
        = parseBlocksSpec rest (commitPending secs cur acc, e.1, e.2) := rfl
      _ = rest.foldl (fun a x => upsertAssoc a x.1 x.2)
            (commitPending (commitPending secs cur acc) e.1 e.2) :=
          ih (fun x hx => hM x (List.mem_cons_of_mem e hx)) _ _ _
      _ = rest.foldl (fun a x => upsertAssoc a x.1 x.2)
            (upsertAssoc (commitPending secs cur acc) e.1 e.2) := by rw [h1]
      _ = (e :: rest).foldl (fun a x => upsertAssoc a x.1 x.2)
            (commitPending secs cur acc) := by rw [List.foldl_cons]

theorem upsertAssoc_of_fresh {α : Type} :
    ∀ (l : List (String × α)) (k : String) (v : α),
      (∀ p ∈ l, p.1 ≠ k) → upsertAssoc l k v = l ++ [(k, v)] := by
  intro l
  induction l with
  | nil =>
    intro k v _
    rfl
  | cons e rest ih =>
    intro k v h
    rw [show e = (e.1, e.2) from rfl]
    unfold upsertAssoc
    rw [if_neg (h e (List.mem_cons_self e rest))]
    rw [ih k v (fun p hp => h p (List.mem_cons_of_mem e hp))]
    rfl

theorem foldl_upsert_fresh {α : Type} :
    ∀ (rest : List (String × α)) (acc : List (String × α)),
      (∀ x ∈ rest, ∀ p ∈ acc, p.1 ≠ x.1) → (rest.map Prod.fst).Nodup →
      rest.foldl (fun a x => upsertAssoc a x.1 x.2) acc = acc ++ rest := by
  intro rest
  induction rest with
  | nil =>
    intro acc _ _
    rw [List.foldl_nil, List.append_nil]
  | cons e t ih =>
    intro acc h hnd
    have hfresh : e.1 ∉ t.map Prod.fst := (List.nodup_cons.mp (by simpa using hnd)).1
    have hnd' : (t.map Prod.fst).Nodup := (List.nodup_cons.mp (by simpa using hnd)).2
    have h' : ∀ x ∈ t, ∀ p ∈ acc ++ [(e.1, e.2)], p.1 ≠ x.1 := by
      intro x hx p hp
      rcases List.mem_append.mp hp with hpa | hpe
      · exact h x (List.mem_cons_of_mem e hx) p hpa
      · rw [List.mem_singleton.mp hpe]
        intro hcon
        exact hfresh (by rw [hcon]; exact List.mem_map_of_mem Prod.fst hx)
    rw [List.foldl_cons]
    rw [upsertAssoc_of_fresh acc e.1 e.2
      (fun p hp => h e (List.mem_cons_self e t) p hp)]
    rw [ih (acc ++ [(e.1, e.2)]) h' hnd']
    rw [List.append_assoc]
    rfl

/-- On a well-formed section map, parsing the rendered file gives back
exactly the same map. -/
theorem parse_render_id {M : Sections} (hM : GoodSections M) :
    parseExistingSections (renderSections M) = M := by
  have hg : (M.map Prod.fst).head? = some "General"
      ∧ (M.map Prod.fst).Nodup
      ∧ ∀ e ∈ M, e.2 ≠ [] ∧ CleanKey e.1 ∧ ∀ l ∈ e.2, SafeLine l := hM
  obtain ⟨e0, rest, hMeq⟩ : ∃ e0 rest, M = e0 :: rest := by
    cases M with
    | nil => exact absurd hg.1 (by simp)
    | cons a t => exact ⟨a, t, rfl⟩
  rw [hMeq] at hg
  subst hMeq
  have he0 : e0.1 = "General" := by simpa using hg.1
  have hfresh : e0.1 ∉ rest.map Prod.fst := (List.nodup_cons.mp (by simpa using hg.2.1)).1
  have hnd' : (rest.map Prod.fst).Nodup := (List.nodup_cons.mp (by simpa using hg.2.1)).2
  unfold parseExistingSections
  rw [render_strip_id hM]
  rw [splitLines_joinLines (renderLines (e0 :: rest))
    (by unfold renderLines; simp) (renderLines_nl_free hg.2.2)]
  have h1 : parseLinesAux (renderLines (e0 :: rest)) "General" [] []
      = parseLinesAux ((e0 :: rest).flatMap blockOf) "General"
          ["# Project Preferences"] [] := by
    show parseLinesAux ("# Project Preferences"
        :: "" :: (e0 :: rest).flatMap blockOf) "General" [] [] = _
    conv_lhs => rw [parseLinesAux]
    rw [if_neg (by decide), if_pos (by decide)]
    rw [parseLinesAux_blank, List.nil_append]
  rw [h1]
  rw [parseLinesAux_blocks (e0 :: rest) hg.2.2 "General" ["# Project Preferences"] []]
  rw [parseBlocksSpec_eq (e0 :: rest) (fun x hx => (hg.2.2 x hx).1) [] "General"
    ["# Project Preferences"]]
  rw [show commitPending [] "General" ["# Project Preferences"]
      = [("General", ["# Project Preferences"])] from rfl]
  rw [List.foldl_cons]
  have hup : upsertAssoc [("General", ["# Project Preferences"])] e0.1 e0.2
      = [e0] := by
    unfold upsertAssoc
    rw [if_pos he0.symm, ← he0]
  rw [hup]
  have hfr : ∀ x ∈ rest, ∀ p ∈ ([e0] : Sections), p.1 ≠ x.1 := by
    intro x hx p hp
    rw [List.mem_singleton.mp hp]
    intro hcon
    exact hfresh (by rw [hcon]; exact List.mem_map_of_mem Prod.fst hx)
  rw [foldl_upsert_fresh rest [e0] hfr hnd']
  rfl

/-- C8: the claim that the preferences merge is idempotent for every
existing CLAUDE.md file fails (see the counterexample), but it holds in
the amended form: whenever the section map produced by the first merge
is well-formed — headed by a non-empty `General` bucket, every bucket
non-empty with a clean name and safe single-line items, names pairwise
distinct (as produced for any file with text before its first `## `
header, e.g. the standard title line) — applying the update twice with
the same content yields the same file text as applying it once. -/
theorem C8_merge_idempotent (T : String) (c : PrefContent)
    (h : GoodSections (mergeAssoc (parseExistingSections T) (buildNewSections c))) :
    updateClaudeMd (updateClaudeMd T c) c = updateClaudeMd T c := by
  unfold updateClaudeMd mergeSections
  rw [parse_render_id h]
  rw [mergeAssoc_idem]

/-- Witness for the C8 amended theorem: on the titled existing file the
merged section map is well-formed and the update is idempotent. -/
theorem C8_merge_idempotent_witness :
    GoodSections (mergeAssoc (parseExistingSections exampleTitledMdText)
        (buildNewSections examplePrefContent))
    ∧ updateClaudeMd (updateClaudeMd exampleTitledMdText examplePrefContent)
        examplePrefContent
      = updateClaudeMd exampleTitledMdText examplePrefContent :=
  ⟨by unfold GoodSections CleanKey SafeLine; decide,
    C8_merge_idempotent exampleTitledMdText examplePrefContent
      (by unfold GoodSections CleanKey SafeLine; decide)⟩

end GoodNight
